import Mathlib

/-!
# delaunaypp: the `triangle` class (`include/delaunaypp/triangle.h`)

A shallow embedding of `delaunaypp::triangle<T>` and a verification of its
circumcircle derivation, containment predicate, equality and cache.

Numbers of C++ type `double` are elements of a linearly ordered field `K`; the
library routines the header calls on them (`std::sqrt`, the trigonometry behind
`internal::rotate`, the conversion to the coordinate type `T`) are collected in
`Arith K`.  Every program definition below is generic in `K` and `Arith K` and is
computable.  The reading "in exact real arithmetic" is the arithmetic `exactReal`.

A division whose divisor is zero does not yield a number (IEEE gives an infinity or
a NaN); the embedding guards each division (`safeDiv`) and records the outcome of a
failed one as `Circumcircle.nonfinite`.

The rounding of IEEE doubles, their signed zeros and the signs of their infinities are
not modelled.  A statement made with `exactReal` or `exactRealInt` is a statement
about exact arithmetic: on doubles the comparison `dist_a == dist_b` of
`calculateCircumcircle` can fail by one unit in the last place where it holds over
the reals, and Heron's radicand can round to a number that is not zero, or to a
negative one, where it is zero or positive over the reals.

`point.h` and `edge.h` are not part of the sources at hand; what `triangle.h` uses
of them is modelled from the specification and marked as such.
-/

set_option linter.dupNamespace false

namespace delaunaypp

/-! ## Arithmetic -/

/-- Library arithmetic on `double` used by `triangle.h`: `std::sqrt`, cosine and
sine of an angle given in degrees (used by `internal::rotate`), and the conversion
of a `double` to the coordinate type `T` done by `point<T>(double, double)`. -/
structure Arith (K : Type) where
  sqrt : K → K
  cosDeg : K → K
  sinDeg : K → K
  castT : K → K

/-- Guarded division: `x / y` when `y` is not zero, no value otherwise. -/
def safeDiv {K : Type} [LinearOrderedField K] (x y : K) : Option K :=
  if y = 0 then none else some (x / y)

/-! ## Points and edges -/

/-- Modelled from the spec: `point<T>` of `point.h`, a coordinate pair `(x, y)`
compared by exact equality of both coordinates. -/
structure point (K : Type) where
  x : K
  y : K
deriving DecidableEq

/-- Modelled from the spec: `operator+` of `point.h`, the componentwise sum
(the candidate centre `M + MO`). -/
instance {K : Type} [Add K] : Add (point K) := ⟨fun p q => ⟨p.x + q.x, p.y + q.y⟩⟩

/-- Modelled from the spec: `operator-` of `point.h`, the componentwise difference
(the candidate centre `M - MO`). -/
instance {K : Type} [Sub K] : Sub (point K) := ⟨fun p q => ⟨p.x - q.x, p.y - q.y⟩⟩

/-- Modelled from the spec: the free function `distance(p1, p2)` of `point.h`, the
Euclidean distance of two points. -/
def distance {K : Type} [LinearOrderedField K] (A : Arith K) (p q : point K) : K :=
  A.sqrt ((p.x - q.x) * (p.x - q.x) + (p.y - q.y) * (p.y - q.y))

namespace internal

/-- Modelled from the spec: `internal::edge<Point>` of `edge.h`, the ordered pair
(start, end) of points. -/
structure edge (K : Type) where
  start : point K
  end_ : point K
deriving DecidableEq

/-- Modelled from the spec: `edge::midpoint()`, the arithmetic mean of the
coordinates of the two end points. -/
def edge.midpoint {K : Type} [LinearOrderedField K] (e : edge K) : point K :=
  ⟨(e.start.x + e.end_.x) / 2, (e.start.y + e.end_.y) / 2⟩

/-- Modelled from the spec: `edge::length()`, the Euclidean distance between start
and end. -/
def edge.length {K : Type} [LinearOrderedField K] (A : Arith K) (e : edge K) : K :=
  distance A e.start e.end_

/-- Modelled from the spec: `internal::rotate(edge, angleDegrees)`, the edge with the
same start whose direction vector is the given one rotated about the start point by
the angle (counterclockwise for a positive angle), of the same length. -/
def rotate {K : Type} [LinearOrderedField K] (A : Arith K) (e : edge K) (degrees : K) :
    edge K :=
  let dx := e.end_.x - e.start.x
  let dy := e.end_.y - e.start.y
  ⟨e.start,
   ⟨e.start.x + (dx * A.cosDeg degrees - dy * A.sinDeg degrees),
    e.start.y + (dx * A.sinDeg degrees + dy * A.cosDeg degrees)⟩⟩

end internal

open internal

/-! ## The triangle -/

/-- A `std::array<X, 3>`. -/
structure array3 (α : Type) where
  e0 : α
  e1 : α
  e2 : α
deriving DecidableEq

/-- The member `std::array::at` called with an `int` index behind
`assert(index >= 0)` and `assert(index < 3)`: the element for `0 <= index < 3`, a
failure otherwise. -/
def array3.at_ {α : Type} (a : array3 α) (index : Int) : Option α :=
  if index = 0 then some a.e0
  else if index = 1 then some a.e1
  else if index = 2 then some a.e2
  else none

/-- The element of a `std::array<X, 3>` at an index in range: `a[i]`. -/
def array3.get {α : Type} (a : array3 α) : Fin 3 → α
  | 0 => a.e0
  | 1 => a.e1
  | 2 => a.e2

/-- The type `Circumcircle = std::pair<point<double>, double>`: a centre and a
radius, or a pair that holds non-finite doubles after a division by zero. -/
inductive Circumcircle (K : Type) where
  | finite (first : point K) (second : K)
  | nonfinite
deriving DecidableEq

/-- The test `circumcircle_.second < 0.0` of `circumcircle` and
`circumcircle_contains`.  For a pair left by a division by zero the embedding takes
the comparison to be false, as it is for the radius `+inf` and for a NaN.  The radius
`-inf`, which IEEE arithmetic gives for the divisor `-0.0` and for which the
comparison is true, is outside the embedding: nothing proved below rests on the value
chosen here for a non-finite pair. -/
def Circumcircle.second_lt_zero {K : Type} [LinearOrderedField K] :
    Circumcircle K → Bool
  | .finite _ second => decide (second < 0)
  | .nonfinite => false

/-- The state of a `triangle<T>`: its four data members. -/
structure triangle (K : Type) where
  points_ : array3 (point K)
  edges_ : array3 (edge K)
  circumcircle_ : Circumcircle K
  is_bad_ : Bool
deriving DecidableEq

namespace triangle

variable {K : Type} [LinearOrderedField K]

/-- The constructor `triangle::triangle(p1, p2, p3)`. -/
def triangle (p1 p2 p3 : point K) : triangle K :=
  { points_ := ⟨p1, p2, p3⟩
    edges_ := ⟨⟨p1, p2⟩, ⟨p2, p3⟩, ⟨p3, p1⟩⟩
    circumcircle_ := .finite ⟨0, 0⟩ (-1)
    is_bad_ := false }

/-- The member `triangle::operator=`: the receiver takes all four members of `other`. -/
def operator_assign (_self other : delaunaypp.triangle K) : delaunaypp.triangle K :=
  { points_ := other.points_
    edges_ := other.edges_
    circumcircle_ := other.circumcircle_
    is_bad_ := other.is_bad_ }

/-- The member `triangle::operator==`. -/
def operator_eq (self other : delaunaypp.triangle K) : Bool :=
  let p1 := self.points_.e0
  let p2 := self.points_.e1
  let p3 := self.points_.e2
  (decide (p1 = other.points_.e0) || decide (p1 = other.points_.e1) ||
      decide (p1 = other.points_.e2)) &&
    (decide (p2 = other.points_.e0) || decide (p2 = other.points_.e1) ||
      decide (p2 = other.points_.e2)) &&
    (decide (p3 = other.points_.e0) || decide (p3 = other.points_.e1) ||
      decide (p3 = other.points_.e2))

/-- The member `triangle::points`. -/
def points (self : delaunaypp.triangle K) : array3 (point K) := self.points_

/-- The member `triangle::edges`. -/
def edges (self : delaunaypp.triangle K) : array3 (edge K) := self.edges_

/-- The member `triangle::edge_at`. -/
def edge_at (self : delaunaypp.triangle K) (index : Int) : Option (edge K) :=
  if 0 ≤ index then
    if index < 3 then self.edges_.at_ index else none
  else none

/-- The member `triangle::point_at`. -/
def point_at (self : delaunaypp.triangle K) (index : Int) : Option (point K) :=
  if 0 ≤ index then
    if index < 3 then self.points_.at_ index else none
  else none

/-- The member `triangle::is_bad`. -/
def is_bad (self : delaunaypp.triangle K) : Bool := self.is_bad_

/-- The member `triangle::set_is_bad`. -/
def set_is_bad (self : delaunaypp.triangle K) (is_bad : Bool) : delaunaypp.triangle K :=
  { self with is_bad_ := is_bad }

/-- The member `triangle::calculateCircumcircle`.  The calls `edge_at(0..2)` and
`point_at(0..2)` have constant indices in range and read the array elements
(`edge_at_point_at_const` below).  The two divisions are guarded; when one
fails the stored pair is `nonfinite`. -/
def calculateCircumcircle (A : Arith K) (self : delaunaypp.triangle K) :
    delaunaypp.triangle K :=
  let _e1 := self.edges_.e0
  let _e2 := self.edges_.e1
  let _e3 := self.edges_.e2
  let _p1 := self.points_.e0
  let _p2 := self.points_.e1
  let _p3 := self.points_.e2
  let midpoint_ab := _e1.midpoint
  let length_a := _e1.length A
  let length_b := _e2.length A
  let length_c := _e3.length A
  let d := distance A _p1 midpoint_ab
  let s := (length_a + length_b + length_c) / 2
  -- area using Heron's formula
  let k := A.sqrt (s * (s - length_a) * (s - length_b) * (s - length_c))
  -- the radius
  match safeDiv (length_a * length_b * length_c) (4 * k) with
  | none => { self with circumcircle_ := .nonfinite }
  | some circumradius =>
    let length_om := A.sqrt |d * d - circumradius * circumradius|
    -- rotate clockwise, note the negative angle
    let rotated_ab := rotate A _e1 (-90)
    let rotated_length := rotated_ab.length A
    match safeDiv length_om rotated_length with
    | none => { self with circumcircle_ := .nonfinite }
    | some scaling =>
      -- `std::complex<double> mo(...)`, then `mo *= scaling`
      let mo_re := (rotated_ab.end_.x - rotated_ab.start.x) * scaling
      let mo_im := (rotated_ab.end_.y - rotated_ab.start.y) * scaling
      let mo_p : point K := ⟨A.castT mo_re, A.castT mo_im⟩
      let test := midpoint_ab + mo_p
      let dist_a := distance A _p1 test
      let dist_b := distance A _p2 test
      let dist_c := distance A _p3 test
      if dist_a = dist_b ∧ dist_b = dist_c then
        { self with circumcircle_ := .finite test circumradius }
      else
        { self with circumcircle_ := .finite (midpoint_ab - mo_p) circumradius }

/-! The values of the local variables of `calculateCircumcircle`, named so that
statements can speak about them; `calculateCircumcircle_eq_locals` shows that the
function is put together from them. -/

/-- The local `circumradius` of `calculateCircumcircle`: the product of the three
edge lengths over four times Heron's area. -/
def circumradius (A : Arith K) (self : delaunaypp.triangle K) : Option K :=
  let length_a := self.edges_.e0.length A
  let length_b := self.edges_.e1.length A
  let length_c := self.edges_.e2.length A
  let s := (length_a + length_b + length_c) / 2
  let k := A.sqrt (s * (s - length_a) * (s - length_b) * (s - length_c))
  safeDiv (length_a * length_b * length_c) (4 * k)

/-- The local `scaling` of `calculateCircumcircle`, for the value of `circumradius`. -/
def scaling (A : Arith K) (self : delaunaypp.triangle K) (circumradius : K) : Option K :=
  let d := distance A self.points_.e0 self.edges_.e0.midpoint
  let length_om := A.sqrt |d * d - circumradius * circumradius|
  let rotated_ab := rotate A self.edges_.e0 (-90)
  safeDiv length_om (rotated_ab.length A)

/-- The local `mo_p` of `calculateCircumcircle`, for the value of `scaling`. -/
def mo_p (A : Arith K) (self : delaunaypp.triangle K) (scaling : K) : point K :=
  let rotated_ab := rotate A self.edges_.e0 (-90)
  ⟨A.castT ((rotated_ab.end_.x - rotated_ab.start.x) * scaling),
   A.castT ((rotated_ab.end_.y - rotated_ab.start.y) * scaling)⟩

/-- The local `test` of `calculateCircumcircle`, the candidate centre `M + MO`. -/
def test (A : Arith K) (self : delaunaypp.triangle K) (scaling : K) : point K :=
  self.edges_.e0.midpoint + self.mo_p A scaling

/-- The condition `dist_a == dist_b && dist_b == dist_c` of `calculateCircumcircle`. -/
def test_equidistant (A : Arith K) (self : delaunaypp.triangle K) (scaling : K) : Prop :=
  distance A self.points_.e0 (self.test A scaling) =
      distance A self.points_.e1 (self.test A scaling) ∧
    distance A self.points_.e1 (self.test A scaling) =
      distance A self.points_.e2 (self.test A scaling)

instance (A : Arith K) (self : delaunaypp.triangle K) (scaling : K) :
    Decidable (self.test_equidistant A scaling) :=
  inferInstanceAs (Decidable (_ ∧ _))

/-- The member `triangle::circumcircle`: the returned pair and the state after the
call. -/
def circumcircle (A : Arith K) (self : delaunaypp.triangle K) :
    Circumcircle K × delaunaypp.triangle K :=
  let self1 := if self.circumcircle_.second_lt_zero then calculateCircumcircle A self else self
  (self1.circumcircle_, self1)

/-- The member `triangle::circumcircle_contains`: the returned boolean and the state
after the call.  The comparison is made on a finite stored pair; on a non-finite one
the embedding gives no boolean. -/
def circumcircle_contains (A : Arith K) (self : delaunaypp.triangle K) (p : point K) :
    Option Bool × delaunaypp.triangle K :=
  let self1 := if self.circumcircle_.second_lt_zero then calculateCircumcircle A self else self
  (match self1.circumcircle_ with
    | .finite first second => some (decide (distance A p first ≤ second))
    | .nonfinite => none,
   self1)

/-- The stream output `operator<<(std::ostream&, const triangle<T>&)`: the characters
written, with `r` the rendering of a point by the `operator<<` of `point.h`. -/
def operator_shl (r : point K → String) (tri : delaunaypp.triangle K) : String :=
  let stream := "["
  let stream := stream ++ r tri.points.e0 ++ " "
  let stream := stream ++ r tri.points.e1 ++ " "
  let stream := stream ++ r tri.points.e2 ++ " "
  stream ++ "]"

end triangle

/-! ## Exact real arithmetic -/

/-- The arithmetic of the real numbers: the exact square root, the exact cosine and
sine of an angle in degrees, and `T = double`, for which the conversion to the
coordinate type does nothing. -/
noncomputable def exactReal : Arith ℝ where
  sqrt := Real.sqrt
  cosDeg := fun a => Real.cos (a * Real.pi / 180)
  sinDeg := fun a => Real.sin (a * Real.pi / 180)
  castT := id

/-- The exact arithmetic of the real numbers with the coordinate type `T = int`: the
conversion of a `double` to `int` in `point<int>(double, double)` drops the
fractional part (it rounds toward zero). -/
noncomputable def exactRealInt : Arith ℝ where
  sqrt := Real.sqrt
  cosDeg := fun a => Real.cos (a * Real.pi / 180)
  sinDeg := fun a => Real.sin (a * Real.pi / 180)
  castT := fun x => if 0 ≤ x then ((⌊x⌋ : ℤ) : ℝ) else ((⌈x⌉ : ℤ) : ℝ)

/-- Three points lie on one line: the cross product of `p2 - p1` and `p3 - p1`
vanishes. -/
def collinear {K : Type} [LinearOrderedField K] (p1 p2 p3 : point K) : Prop :=
  (p2.x - p1.x) * (p3.y - p1.y) - (p3.x - p1.x) * (p2.y - p1.y) = 0

instance {K : Type} [LinearOrderedField K] (p1 p2 p3 : point K) :
    Decidable (collinear p1 p2 p3) :=
  inferInstanceAs (Decidable (_ = _))

/-! ## Reachable states and vocabulary of the specification -/

/-- The states a `triangle<T>` object can be in: the one the constructor builds and
those the mutating members (`operator=`, `circumcircle_contains`, `circumcircle`,
`set_is_bad`) lead to.  The `const` members and `operator==` leave the state as it
is. -/
inductive Reachable {K : Type} [LinearOrderedField K] (A : Arith K) : triangle K → Prop
  | construct (p1 p2 p3 : point K) : Reachable A (triangle.triangle p1 p2 p3)
  | assign {t u : triangle K} : Reachable A t → Reachable A u →
      Reachable A (t.operator_assign u)
  | contains {t : triangle K} (q : point K) : Reachable A t →
      Reachable A (t.circumcircle_contains A q).2
  | circle {t : triangle K} : Reachable A t → Reachable A (t.circumcircle A).2
  | set_bad {t : triangle K} (b : Bool) : Reachable A t → Reachable A (t.set_is_bad b)

/-- The edges join the points in cyclic order: `(P1,P2)`, `(P2,P3)`, `(P3,P1)`. -/
def triangle.consistent {K : Type} (t : delaunaypp.triangle K) : Prop :=
  t.edges_ = ⟨⟨t.points_.e0, t.points_.e1⟩, ⟨t.points_.e1, t.points_.e2⟩,
    ⟨t.points_.e2, t.points_.e0⟩⟩

/-- The stored pair is the constructor's sentinel or what `calculateCircumcircle`
stores for this triangle. -/
def triangle.cached {K : Type} [LinearOrderedField K] (A : Arith K)
    (t : delaunaypp.triangle K) : Prop :=
  t.circumcircle_ = .finite ⟨0, 0⟩ (-1) ∨
    t.circumcircle_ = (t.calculateCircumcircle A).circumcircle_

/-- The three vertices do not lie on one line. -/
def triangle.nondegenerate {K : Type} [LinearOrderedField K]
    (t : delaunaypp.triangle K) : Prop :=
  ¬ collinear t.points_.e0 t.points_.e1 t.points_.e2

instance {K : Type} [LinearOrderedField K] (t : delaunaypp.triangle K) :
    Decidable t.nondegenerate :=
  inferInstanceAs (Decidable (¬ _))

/-- The set of vertices of a triangle. -/
def triangle.vertices {K : Type} [DecidableEq K] (t : delaunaypp.triangle K) :
    Finset (point K) :=
  {t.points_.e0, t.points_.e1, t.points_.e2}

/-- The three vertices are pairwise distinct. -/
def triangle.distinct {K : Type} (t : delaunaypp.triangle K) : Prop :=
  t.points_.e0 ≠ t.points_.e1 ∧ t.points_.e1 ≠ t.points_.e2 ∧ t.points_.e0 ≠ t.points_.e2

instance {K : Type} [DecidableEq K] (t : delaunaypp.triangle K) : Decidable t.distinct :=
  inferInstanceAs (Decidable (_ ∧ _ ∧ _))

/-! # Verification

## Facts of real arithmetic -/

/-- The exact cosine of -90 degrees. -/
theorem exactReal_cosDeg : exactReal.cosDeg (-90) = 0 := by
  show Real.cos (-90 * Real.pi / 180) = 0
  have h : (-90 * Real.pi / 180 : ℝ) = -(Real.pi / 2) := by ring
  rw [h, Real.cos_neg, Real.cos_pi_div_two]

/-- The exact sine of -90 degrees. -/
theorem exactReal_sinDeg : exactReal.sinDeg (-90) = -1 := by
  show Real.sin (-90 * Real.pi / 180) = -1
  have h : (-90 * Real.pi / 180 : ℝ) = -(Real.pi / 2) := by ring
  rw [h, Real.sin_neg, Real.sin_pi_div_two]

/-- Heron's radicand in terms of the squared side lengths. -/
theorem heron_radicand (a b c A B C : ℝ) (ha : a * a = A) (hb : b * b = B) (hc : c * c = C) :
    (a + b + c) / 2 * ((a + b + c) / 2 - a) * ((a + b + c) / 2 - b) * ((a + b + c) / 2 - c)
      = (2 * A * B + 2 * B * C + 2 * C * A - A * A - B * B - C * C) / 16 := by
  subst ha hb hc
  ring

/-- A square root is determined by its square. -/
theorem sqrt_eq_of_sq {x r : ℝ} (hr : 0 ≤ r) (h : r * r = x) : Real.sqrt x = r := by
  rw [← h, Real.sqrt_mul_self hr]

/-! ## Guarded division and the arithmetic of the reals -/

/-- The guarded division succeeds exactly on a divisor that is not zero. -/
theorem safeDiv_eq_some {K : Type} [LinearOrderedField K] {x y r : K} :
    safeDiv x y = some r ↔ y ≠ 0 ∧ x / y = r := by
  unfold safeDiv
  by_cases h : y = 0 <;> simp [h]

/-- The guarded division fails exactly on the divisor zero. -/
theorem safeDiv_eq_none {K : Type} [LinearOrderedField K] {x y : K} :
    safeDiv x y = none ↔ y = 0 := by
  unfold safeDiv
  by_cases h : y = 0 <;> simp [h]

/-- The calls `edge_at(0)`, `edge_at(1)`, `edge_at(2)`, `point_at(0)`, `point_at(1)`,
`point_at(2)` of `calculateCircumcircle` pass their assertions and return the array
elements. -/
theorem edge_at_point_at_const {K : Type} [LinearOrderedField K] (t : triangle K) :
    t.edge_at 0 = some t.edges_.e0 ∧ t.edge_at 1 = some t.edges_.e1 ∧
    t.edge_at 2 = some t.edges_.e2 ∧ t.point_at 0 = some t.points_.e0 ∧
    t.point_at 1 = some t.points_.e1 ∧ t.point_at 2 = some t.points_.e2 := by
  refine ⟨?_, ?_, ?_, ?_, ?_, ?_⟩ <;> rfl

/-- The square root of `exactReal` is the real square root. -/
theorem exactReal_sqrt (x : ℝ) : exactReal.sqrt x = Real.sqrt x := rfl

/-- The conversion to the coordinate type of `exactReal` does nothing. -/
theorem exactReal_castT (x : ℝ) : exactReal.castT x = x := rfl

/-- Heron's area of a triangle given by coordinates is half the absolute value of
the cross product. -/
theorem heron_area (x1 y1 x2 y2 x3 y3 a b c : ℝ)
    (ha : a * a = (x1 - x2) * (x1 - x2) + (y1 - y2) * (y1 - y2))
    (hb : b * b = (x2 - x3) * (x2 - x3) + (y2 - y3) * (y2 - y3))
    (hc : c * c = (x3 - x1) * (x3 - x1) + (y3 - y1) * (y3 - y1)) :
    Real.sqrt ((a + b + c) / 2 * ((a + b + c) / 2 - a) * ((a + b + c) / 2 - b) *
        ((a + b + c) / 2 - c))
      = |(x2 - x1) * (y3 - y1) - (x3 - x1) * (y2 - y1)| / 2 := by
  apply sqrt_eq_of_sq (by positivity)
  rw [heron_radicand a b c _ _ _ ha hb hc]
  have h := abs_mul_abs_self ((x2 - x1) * (y3 - y1) - (x3 - x1) * (y2 - y1))
  linear_combination h / 4

/-- With `r` the circumradius and `σ` the scaling of the rotated edge, both candidate
centres lie at distance `r` from `p1` and `p2`, and one of them at distance `r` from
`p3` (all in squared form). -/
theorem candidates_sq (x1 y1 x2 y2 x3 y3 r σ : ℝ)
    (hD : (x2 - x1) * (y3 - y1) - (x3 - x1) * (y2 - y1) ≠ 0)
    (hr : r * r * (4 * (((x2 - x1) * (y3 - y1) - (x3 - x1) * (y2 - y1)) *
        ((x2 - x1) * (y3 - y1) - (x3 - x1) * (y2 - y1)))) =
      ((x1 - x2) * (x1 - x2) + (y1 - y2) * (y1 - y2)) *
      ((x2 - x3) * (x2 - x3) + (y2 - y3) * (y2 - y3)) *
      ((x3 - x1) * (x3 - x1) + (y3 - y1) * (y3 - y1)))
    (hσ : σ * σ * ((x1 - x2) * (x1 - x2) + (y1 - y2) * (y1 - y2)) =
      r * r - ((x1 - x2) * (x1 - x2) + (y1 - y2) * (y1 - y2)) / 4) :
    (∀ e : ℝ, e = 1 ∨ e = -1 →
      (x1 - ((x1 + x2) / 2 + e * ((y2 - y1) * σ))) * (x1 - ((x1 + x2) / 2 + e * ((y2 - y1) * σ))) +
        (y1 - ((y1 + y2) / 2 + e * (-(x2 - x1) * σ))) *
          (y1 - ((y1 + y2) / 2 + e * (-(x2 - x1) * σ))) = r * r ∧
      (x2 - ((x1 + x2) / 2 + e * ((y2 - y1) * σ))) * (x2 - ((x1 + x2) / 2 + e * ((y2 - y1) * σ))) +
        (y2 - ((y1 + y2) / 2 + e * (-(x2 - x1) * σ))) *
          (y2 - ((y1 + y2) / 2 + e * (-(x2 - x1) * σ))) = r * r) ∧
    ((x3 - ((x1 + x2) / 2 + (y2 - y1) * σ)) * (x3 - ((x1 + x2) / 2 + (y2 - y1) * σ)) +
        (y3 - ((y1 + y2) / 2 + -(x2 - x1) * σ)) * (y3 - ((y1 + y2) / 2 + -(x2 - x1) * σ)) = r * r ∨
     (x3 - ((x1 + x2) / 2 - (y2 - y1) * σ)) * (x3 - ((x1 + x2) / 2 - (y2 - y1) * σ)) +
        (y3 - ((y1 + y2) / 2 - -(x2 - x1) * σ)) * (y3 - ((y1 + y2) / 2 - -(x2 - x1) * σ)) = r * r) := by
  constructor
  · intro e he
    have he2 : e * e = 1 := by rcases he with rfl | rfl <;> norm_num
    constructor
    · linear_combination hσ + (σ * σ * ((x1 - x2) * (x1 - x2) + (y1 - y2) * (y1 - y2))) * he2
    · linear_combination hσ + (σ * σ * ((x1 - x2) * (x1 - x2) + (y1 - y2) * (y1 - y2))) * he2
  · set D := (x2 - x1) * (y3 - y1) - (x3 - x1) * (y2 - y1) with hDdef
    set A := (x1 - x2) * (x1 - x2) + (y1 - y2) * (y1 - y2) with hA
    have hA0 : A ≠ 0 := by
      intro h0
      have h1 : x1 - x2 = 0 := by nlinarith [mul_self_nonneg (x1 - x2), mul_self_nonneg (y1 - y2)]
      have h2 : y1 - y2 = 0 := by nlinarith [mul_self_nonneg (x1 - x2), mul_self_nonneg (y1 - y2)]
      apply hD
      have e1 : x2 = x1 := by linarith
      have e2 : y2 = y1 := by linarith
      rw [hDdef, e1, e2]; ring
    -- 4 σ² D² = dot²
    have key : 4 * (σ * σ) * (D * D) =
        ((x1 - x3) * (x2 - x3) + (y1 - y3) * (y2 - y3)) *
        ((x1 - x3) * (x2 - x3) + (y1 - y3) * (y2 - y3)) := by
      apply mul_left_cancel₀ hA0
      linear_combination (4 * (D * D)) * hσ + hr
    have prod : ((x3 - ((x1 + x2) / 2 + (y2 - y1) * σ)) * (x3 - ((x1 + x2) / 2 + (y2 - y1) * σ)) +
        (y3 - ((y1 + y2) / 2 + -(x2 - x1) * σ)) * (y3 - ((y1 + y2) / 2 + -(x2 - x1) * σ)) - r * r) *
        ((x3 - ((x1 + x2) / 2 - (y2 - y1) * σ)) * (x3 - ((x1 + x2) / 2 - (y2 - y1) * σ)) +
        (y3 - ((y1 + y2) / 2 - -(x2 - x1) * σ)) * (y3 - ((y1 + y2) / 2 - -(x2 - x1) * σ)) - r * r)
        = 0 := by
      have h1 : (x3 - ((x1 + x2) / 2 + (y2 - y1) * σ)) * (x3 - ((x1 + x2) / 2 + (y2 - y1) * σ)) +
        (y3 - ((y1 + y2) / 2 + -(x2 - x1) * σ)) * (y3 - ((y1 + y2) / 2 + -(x2 - x1) * σ)) - r * r
          = ((x1 - x3) * (x2 - x3) + (y1 - y3) * (y2 - y3)) + 2 * σ * D := by
        rw [hDdef]; linear_combination hσ
      have h2 : (x3 - ((x1 + x2) / 2 - (y2 - y1) * σ)) * (x3 - ((x1 + x2) / 2 - (y2 - y1) * σ)) +
        (y3 - ((y1 + y2) / 2 - -(x2 - x1) * σ)) * (y3 - ((y1 + y2) / 2 - -(x2 - x1) * σ)) - r * r
          = ((x1 - x3) * (x2 - x3) + (y1 - y3) * (y2 - y3)) - 2 * σ * D := by
        rw [hDdef]; linear_combination hσ
      rw [h1, h2]
      linear_combination -key
    rcases mul_eq_zero.mp prod with h | h
    · left; linarith
    · right; linarith

/-! ## The circumcircle of a non-degenerate triangle -/

/-- The first coordinate of a sum of points. -/
theorem point.add_x {K : Type} [Add K] (p q : point K) : (p + q).x = p.x + q.x := rfl

/-- The second coordinate of a sum of points. -/
theorem point.add_y {K : Type} [Add K] (p q : point K) : (p + q).y = p.y + q.y := rfl

/-- The first coordinate of a difference of points. -/
theorem point.sub_x {K : Type} [Sub K] (p q : point K) : (p - q).x = p.x - q.x := rfl

/-- The second coordinate of a difference of points. -/
theorem point.sub_y {K : Type} [Sub K] (p q : point K) : (p - q).y = p.y - q.y := rfl

/-- In exact real arithmetic with the coordinate type `double`, on a triangle whose
edges join its three non-collinear points in cyclic order, `calculateCircumcircle`
stores a finite pair: a positive radius and a centre at that distance from each
vertex. -/
theorem calculateCircumcircle_equidistant (t : triangle ℝ) (p1 p2 p3 : point ℝ)
    (hp : t.points_ = ⟨p1, p2, p3⟩) (he : t.edges_ = ⟨⟨p1, p2⟩, ⟨p2, p3⟩, ⟨p3, p1⟩⟩)
    (h : ¬ collinear p1 p2 p3) :
    ∃ c r, triangle.calculateCircumcircle exactReal t = { t with circumcircle_ := .finite c r } ∧
      0 < r ∧ distance exactReal p1 c = r ∧ distance exactReal p2 c = r ∧
      distance exactReal p3 c = r := by
  obtain ⟨x1, y1⟩ := p1
  obtain ⟨x2, y2⟩ := p2
  obtain ⟨x3, y3⟩ := p3
  obtain ⟨pts, eds, circ, bad⟩ := t
  simp only at hp he
  subst hp he
  simp only [collinear] at h
  unfold triangle.calculateCircumcircle
  simp only [edge.length, edge.midpoint, rotate, distance,
    exactReal_cosDeg, exactReal_sinDeg, exactReal_sqrt, exactReal_castT,
    point.add_x, point.add_y, point.sub_x, point.sub_y]
  have hrot : Real.sqrt ((x1 - (x1 + ((x2 - x1) * 0 - (y2 - y1) * -1))) *
        (x1 - (x1 + ((x2 - x1) * 0 - (y2 - y1) * -1))) +
      (y1 - (y1 + ((x2 - x1) * -1 + (y2 - y1) * 0))) *
        (y1 - (y1 + ((x2 - x1) * -1 + (y2 - y1) * 0)))) =
      Real.sqrt ((x1 - x2) * (x1 - x2) + (y1 - y2) * (y1 - y2)) := by
    congr 1; ring
  rw [hrot]
  have hA0 : 0 < (x1 - x2) * (x1 - x2) + (y1 - y2) * (y1 - y2) := by
    rcases lt_or_eq_of_le (add_nonneg (mul_self_nonneg (x1 - x2)) (mul_self_nonneg (y1 - y2)))
      with h0 | h0
    · exact h0
    · exfalso; apply h
      have e1 : x1 - x2 = 0 := by nlinarith [mul_self_nonneg (x1 - x2), mul_self_nonneg (y1 - y2)]
      have e2 : y1 - y2 = 0 := by nlinarith [mul_self_nonneg (x1 - x2), mul_self_nonneg (y1 - y2)]
      have e3 : x2 = x1 := by linarith
      have e4 : y2 = y1 := by linarith
      rw [e3, e4]; ring
  have hB0 : 0 < (x2 - x3) * (x2 - x3) + (y2 - y3) * (y2 - y3) := by
    rcases lt_or_eq_of_le (add_nonneg (mul_self_nonneg (x2 - x3)) (mul_self_nonneg (y2 - y3)))
      with h0 | h0
    · exact h0
    · exfalso; apply h
      have e1 : x2 - x3 = 0 := by nlinarith [mul_self_nonneg (x2 - x3), mul_self_nonneg (y2 - y3)]
      have e2 : y2 - y3 = 0 := by nlinarith [mul_self_nonneg (x2 - x3), mul_self_nonneg (y2 - y3)]
      have e3 : x3 = x2 := by linarith
      have e4 : y3 = y2 := by linarith
      rw [e3, e4]; ring
  have hC0 : 0 < (x3 - x1) * (x3 - x1) + (y3 - y1) * (y3 - y1) := by
    rcases lt_or_eq_of_le (add_nonneg (mul_self_nonneg (x3 - x1)) (mul_self_nonneg (y3 - y1)))
      with h0 | h0
    · exact h0
    · exfalso; apply h
      have e1 : x3 - x1 = 0 := by nlinarith [mul_self_nonneg (x3 - x1), mul_self_nonneg (y3 - y1)]
      have e2 : y3 - y1 = 0 := by nlinarith [mul_self_nonneg (x3 - x1), mul_self_nonneg (y3 - y1)]
      have e3 : x3 = x1 := by linarith
      have e4 : y3 = y1 := by linarith
      rw [e3, e4]; ring
  have hd : Real.sqrt ((x1 - (x1 + x2) / 2) * (x1 - (x1 + x2) / 2) +
      (y1 - (y1 + y2) / 2) * (y1 - (y1 + y2) / 2)) *
      Real.sqrt ((x1 - (x1 + x2) / 2) * (x1 - (x1 + x2) / 2) +
      (y1 - (y1 + y2) / 2) * (y1 - (y1 + y2) / 2)) =
      ((x1 - x2) * (x1 - x2) + (y1 - y2) * (y1 - y2)) / 4 := by
    rw [Real.mul_self_sqrt (add_nonneg (mul_self_nonneg _) (mul_self_nonneg _))]; ring
  rw [hd]
  generalize ha' : Real.sqrt ((x1 - x2) * (x1 - x2) + (y1 - y2) * (y1 - y2)) = a
  generalize hb' : Real.sqrt ((x2 - x3) * (x2 - x3) + (y2 - y3) * (y2 - y3)) = b
  generalize hc' : Real.sqrt ((x3 - x1) * (x3 - x1) + (y3 - y1) * (y3 - y1)) = c
  have ha : a * a = (x1 - x2) * (x1 - x2) + (y1 - y2) * (y1 - y2) := by
    rw [← ha']; exact Real.mul_self_sqrt hA0.le
  have hb : b * b = (x2 - x3) * (x2 - x3) + (y2 - y3) * (y2 - y3) := by
    rw [← hb']; exact Real.mul_self_sqrt hB0.le
  have hc : c * c = (x3 - x1) * (x3 - x1) + (y3 - y1) * (y3 - y1) := by
    rw [← hc']; exact Real.mul_self_sqrt hC0.le
  have ha0 : 0 < a := by rw [← ha']; exact Real.sqrt_pos.mpr hA0
  have hb0 : 0 < b := by rw [← hb']; exact Real.sqrt_pos.mpr hB0
  have hc0 : 0 < c := by rw [← hc']; exact Real.sqrt_pos.mpr hC0
  rw [heron_area x1 y1 x2 y2 x3 y3 a b c ha hb hc]
  generalize hDdef : (x2 - x1) * (y3 - y1) - (x3 - x1) * (y2 - y1) = D at h
  have hDabs : 0 < |D| := abs_pos.mpr h
  have hDD : |D| * |D| = D * D := abs_mul_abs_self D
  split
  · rename_i heq
    rw [safeDiv_eq_none] at heq
    exfalso; linarith
  · rename_i r heq
    rw [safeDiv_eq_some] at heq
    obtain ⟨hk0, hr⟩ := heq
    have hr0 : 0 < r := by rw [← hr]; positivity
    have hr1 : r * (2 * |D|) = a * b * c := by
      rw [← hr]; field_simp; ring
    have hr2 : r * r * (4 * (D * D)) = (a * a) * (b * b) * (c * c) := by
      have : r * r * (4 * (D * D)) = (r * (2 * |D|)) * (r * (2 * |D|)) := by
        linear_combination (-4 * r * r) * hDD
      rw [this, hr1]; ring
    subst hDdef
    have hlag : (r * r - ((x1 - x2) * (x1 - x2) + (y1 - y2) * (y1 - y2)) / 4) *
        (4 * (((x2 - x1) * (y3 - y1) - (x3 - x1) * (y2 - y1)) *
          ((x2 - x1) * (y3 - y1) - (x3 - x1) * (y2 - y1)))) =
        ((x1 - x2) * (x1 - x2) + (y1 - y2) * (y1 - y2)) *
          (((x1 - x3) * (x2 - x3) + (y1 - y3) * (y2 - y3)) *
            ((x1 - x3) * (x2 - x3) + (y1 - y3) * (y2 - y3))) := by
      rw [ha, hb, hc] at hr2
      linear_combination hr2
    have hge : ((x1 - x2) * (x1 - x2) + (y1 - y2) * (y1 - y2)) / 4 ≤ r * r := by
      have hpos : 0 < 4 * (((x2 - x1) * (y3 - y1) - (x3 - x1) * (y2 - y1)) *
          ((x2 - x1) * (y3 - y1) - (x3 - x1) * (y2 - y1))) := by
        rw [← hDD]; positivity
      have hnn : 0 ≤ (r * r - ((x1 - x2) * (x1 - x2) + (y1 - y2) * (y1 - y2)) / 4) *
          (4 * (((x2 - x1) * (y3 - y1) - (x3 - x1) * (y2 - y1)) *
            ((x2 - x1) * (y3 - y1) - (x3 - x1) * (y2 - y1)))) := by
        rw [hlag]; exact mul_nonneg hA0.le (mul_self_nonneg _)
      have := nonneg_of_mul_nonneg_left hnn hpos
      linarith
    have habs : |((x1 - x2) * (x1 - x2) + (y1 - y2) * (y1 - y2)) / 4 - r * r| =
        r * r - ((x1 - x2) * (x1 - x2) + (y1 - y2) * (y1 - y2)) / 4 := by
      rw [abs_of_nonpos (by linarith)]; ring
    rw [habs]
    split
    · rename_i heq
      rw [safeDiv_eq_none] at heq
      exfalso; linarith
    · rename_i σ heq
      rw [safeDiv_eq_some] at heq
      obtain ⟨-, hσ⟩ := heq
      have hσ1 : σ * a = Real.sqrt (r * r - ((x1 - x2) * (x1 - x2) + (y1 - y2) * (y1 - y2)) / 4) := by
        rw [← hσ, div_mul_cancel₀ _ ha0.ne']
      have hσ2 : σ * σ * ((x1 - x2) * (x1 - x2) + (y1 - y2) * (y1 - y2)) =
          r * r - ((x1 - x2) * (x1 - x2) + (y1 - y2) * (y1 - y2)) / 4 := by
        have h1 : (σ * a) * (σ * a) =
            r * r - ((x1 - x2) * (x1 - x2) + (y1 - y2) * (y1 - y2)) / 4 := by
          rw [hσ1]; exact Real.mul_self_sqrt (by linarith)
        have h2 : σ * σ * ((x1 - x2) * (x1 - x2) + (y1 - y2) * (y1 - y2)) =
            (σ * a) * (σ * a) := by rw [← ha]; ring
        rw [h2, h1]
      rw [ha, hb, hc] at hr2
      obtain ⟨hcand, hthird⟩ := candidates_sq x1 y1 x2 y2 x3 y3 r σ h hr2 hσ2
      obtain ⟨hp1, hp2⟩ := hcand 1 (Or.inl rfl)
      obtain ⟨hm1, hm2⟩ := hcand (-1) (Or.inr rfl)
      have da : Real.sqrt ((x1 - ((x1 + x2) / 2 + (x1 + ((x2 - x1) * 0 - (y2 - y1) * -1) - x1) * σ)) *
            (x1 - ((x1 + x2) / 2 + (x1 + ((x2 - x1) * 0 - (y2 - y1) * -1) - x1) * σ)) +
          (y1 - ((y1 + y2) / 2 + (y1 + ((x2 - x1) * -1 + (y2 - y1) * 0) - y1) * σ)) *
            (y1 - ((y1 + y2) / 2 + (y1 + ((x2 - x1) * -1 + (y2 - y1) * 0) - y1) * σ))) = r := by
        apply sqrt_eq_of_sq hr0.le; linear_combination -hp1
      have db : Real.sqrt ((x2 - ((x1 + x2) / 2 + (x1 + ((x2 - x1) * 0 - (y2 - y1) * -1) - x1) * σ)) *
            (x2 - ((x1 + x2) / 2 + (x1 + ((x2 - x1) * 0 - (y2 - y1) * -1) - x1) * σ)) +
          (y2 - ((y1 + y2) / 2 + (y1 + ((x2 - x1) * -1 + (y2 - y1) * 0) - y1) * σ)) *
            (y2 - ((y1 + y2) / 2 + (y1 + ((x2 - x1) * -1 + (y2 - y1) * 0) - y1) * σ))) = r := by
        apply sqrt_eq_of_sq hr0.le; linear_combination -hp2
      rw [da, db]
      split
      · rename_i hcond
        refine ⟨_, _, rfl, hr0, ?_, ?_, ?_⟩
        · simp only [point.add_x, point.add_y]; exact da
        · simp only [point.add_x, point.add_y]; exact db
        · simp only [point.add_x, point.add_y]; exact hcond.2.symm
      · rename_i hcond
        refine ⟨_, _, rfl, hr0, ?_, ?_, ?_⟩
        · simp only [point.sub_x, point.sub_y]
          apply sqrt_eq_of_sq hr0.le; linear_combination -hm1
        · simp only [point.sub_x, point.sub_y]
          apply sqrt_eq_of_sq hr0.le; linear_combination -hm2
        · simp only [point.sub_x, point.sub_y]
          apply sqrt_eq_of_sq hr0.le
          rcases hthird with h3 | h3
          · exfalso; apply hcond
            refine ⟨rfl, ?_⟩
            symm
            apply sqrt_eq_of_sq hr0.le; linear_combination -h3
          · linear_combination -h3

/-! ## What `calculateCircumcircle` writes -/

section frame
variable {K : Type} [LinearOrderedField K]

/-- The function `calculateCircumcircle` writes the member `circumcircle_` and nothing else. -/
theorem calculateCircumcircle_frame (A : Arith K) (t : triangle K) :
    triangle.calculateCircumcircle A t =
      { t with circumcircle_ := (triangle.calculateCircumcircle A t).circumcircle_ } := by
  unfold triangle.calculateCircumcircle
  dsimp only
  split
  · rfl
  · split
    · rfl
    · split <;> rfl

/-- The pair `calculateCircumcircle` stores depends on the points and the edges only. -/
theorem calculateCircumcircle_congr (A : Arith K) (t u : triangle K)
    (hp : t.points_ = u.points_) (he : t.edges_ = u.edges_) :
    (triangle.calculateCircumcircle A t).circumcircle_ =
      (triangle.calculateCircumcircle A u).circumcircle_ := by
  obtain ⟨pts, eds, c, b⟩ := t
  obtain ⟨pts1, eds1, c1, b1⟩ := u
  simp only at hp he
  subst hp he
  unfold triangle.calculateCircumcircle
  dsimp only
  split
  · rfl
  · split
    · rfl
    · split <;> rfl

end frame

/-! ## Reachable states -/

section states
variable {K : Type} [LinearOrderedField K]

/-- The state `circumcircle` leaves. -/
theorem circumcircle_snd (A : Arith K) (t : triangle K) :
    (t.circumcircle A).2 =
      if t.circumcircle_.second_lt_zero then t.calculateCircumcircle A else t := rfl

/-- The pair `circumcircle` returns is the one stored in the state it leaves. -/
theorem circumcircle_fst (A : Arith K) (t : triangle K) :
    (t.circumcircle A).1 = (t.circumcircle A).2.circumcircle_ := rfl

/-- The state `circumcircle_contains` leaves is the one `circumcircle` leaves. -/
theorem circumcircle_contains_snd (A : Arith K) (t : triangle K) (q : point K) :
    (t.circumcircle_contains A q).2 = (t.circumcircle A).2 := rfl

/-- The function `calculateCircumcircle` keeps the points. -/
theorem calculateCircumcircle_points (A : Arith K) (t : triangle K) :
    (t.calculateCircumcircle A).points_ = t.points_ := by
  rw [calculateCircumcircle_frame]

/-- The function `calculateCircumcircle` keeps the edges. -/
theorem calculateCircumcircle_edges (A : Arith K) (t : triangle K) :
    (t.calculateCircumcircle A).edges_ = t.edges_ := by
  rw [calculateCircumcircle_frame]

/-- The function `calculateCircumcircle` keeps the bad flag. -/
theorem calculateCircumcircle_is_bad (A : Arith K) (t : triangle K) :
    (t.calculateCircumcircle A).is_bad_ = t.is_bad_ := by
  rw [calculateCircumcircle_frame]

/-- Running `calculateCircumcircle` a second time stores the same pair. -/
theorem calculateCircumcircle_idem (A : Arith K) (t : triangle K) :
    ((t.calculateCircumcircle A).calculateCircumcircle A).circumcircle_ =
      (t.calculateCircumcircle A).circumcircle_ :=
  calculateCircumcircle_congr A _ _ (calculateCircumcircle_points A t)
    (calculateCircumcircle_edges A t)

/-- Every reachable state has its edges in cyclic order over its points and a stored
pair that is the sentinel or the computed one. -/
theorem Reachable.inv {A : Arith K} {t : triangle K} (h : Reachable A t) :
    t.consistent ∧ t.cached A := by
  induction h with
  | construct p1 p2 p3 => exact ⟨rfl, Or.inl rfl⟩
  | assign _ hu _ ihu =>
    refine ⟨ihu.1, ?_⟩
    rcases ihu.2 with h | h
    · exact Or.inl h
    · exact Or.inr (h.trans (calculateCircumcircle_congr A _ _ rfl rfl))
  | @contains t q _ ih | @circle t _ ih =>
    all_goals
      first
      | rw [circumcircle_contains_snd, circumcircle_snd]
      | rw [circumcircle_snd]
      split
      · refine ⟨?_, Or.inr (calculateCircumcircle_idem A t).symm⟩
        unfold triangle.consistent
        rw [calculateCircumcircle_points, calculateCircumcircle_edges]
        exact ih.1
      · exact ih
  | set_bad b _ ih =>
    refine ⟨ih.1, ?_⟩
    rcases ih.2 with h | h
    · exact Or.inl h
    · exact Or.inr (h.trans (calculateCircumcircle_congr A _ _ rfl rfl))

end states

/-! ## The local values of `calculateCircumcircle` -/

/-- The function `calculateCircumcircle` in terms of its local values: the stored pair is
not finite when one of the two divisions fails, and otherwise it is `circumradius`
with the centre `test` when `test` passes the comparison of the three distances and
`midpoint_ab - mo_p` when it does not. -/
theorem calculateCircumcircle_eq_locals {K : Type} [LinearOrderedField K] (A : Arith K)
    (t : triangle K) :
    (t.calculateCircumcircle A).circumcircle_ =
      match t.circumradius A with
      | none => .nonfinite
      | some r =>
        match t.scaling A r with
        | none => .nonfinite
        | some σ =>
          if t.test_equidistant A σ then .finite (t.test A σ) r
          else .finite (t.edges_.e0.midpoint - t.mo_p A σ) r := by
  unfold triangle.calculateCircumcircle triangle.circumradius triangle.scaling
    triangle.test_equidistant triangle.test triangle.mo_p
  dsimp only
  split
  · rename_i h1
    rw [h1]
  · rename_i r h1
    rw [h1]
    dsimp only
    split
    · rename_i h2
      rw [h2]
    · rename_i σ h2
      rw [h2]
      dsimp only
      split <;> rfl

/-! ## The circumcircle and the containment predicate: claim C3 -/

/-- The boolean `circumcircle_contains` returns is the comparison of the distance to
the centre with the radius of the pair `circumcircle` returns. -/
theorem circumcircle_contains_fst {K : Type} [LinearOrderedField K] (A : Arith K)
    (t : triangle K) (q : point K) :
    (t.circumcircle_contains A q).1 =
      match (t.circumcircle A).1 with
      | .finite c r => some (decide (distance A q c ≤ r))
      | .nonfinite => none := rfl

/-- In exact real arithmetic with the coordinate type `double`, in every reachable
state of a non-degenerate triangle `circumcircle` returns a finite pair whose centre
lies at the distance of the (positive) radius from each vertex. -/
theorem circumcircle_equidistant (t : triangle ℝ) (hreach : Reachable exactReal t)
    (hnd : t.nondegenerate) :
    ∃ c r, (t.circumcircle exactReal).1 = .finite c r ∧ 0 < r ∧
      distance exactReal t.points_.e0 c = r ∧ distance exactReal t.points_.e1 c = r ∧
      distance exactReal t.points_.e2 c = r := by
  obtain ⟨hcons, hcache⟩ := hreach.inv
  obtain ⟨c, r, hcalc, hr0, d1, d2, d3⟩ :=
    calculateCircumcircle_equidistant t _ _ _ rfl hcons hnd
  refine ⟨c, r, ?_, hr0, d1, d2, d3⟩
  have hstored : (t.calculateCircumcircle exactReal).circumcircle_ = .finite c r := by
    rw [hcalc]
  rw [circumcircle_fst, circumcircle_snd]
  rcases hcache with h | h
  · have hlt : t.circumcircle_.second_lt_zero = true := by
      rw [h]; simp [Circumcircle.second_lt_zero]
    rw [hlt]; exact hstored
  · have hfin : t.circumcircle_ = .finite c r := h.trans hstored
    have hlt : t.circumcircle_.second_lt_zero = false := by
      rw [hfin]; simp [Circumcircle.second_lt_zero, hr0.le]
    rw [hlt]; exact hfin

/-- Claim C3: for every triangle state and query point, computed or not,
`circumcircle_contains(q)` returns the outcome of the inclusive comparison
`distance(q, c) <= r` for the pair `(c, r)` that `circumcircle()` returns for the
triangle (no boolean where that pair is not finite); the state it leaves is the one
`circumcircle()` leaves, and `circumcircle()` called afterwards returns that same
pair. -/
theorem C3_contains_iff_within_radius {K : Type} [LinearOrderedField K] (A : Arith K)
    (t : triangle K) (q : point K) :
    ((t.circumcircle_contains A q).1 =
      match (t.circumcircle A).1 with
      | .finite c r => some (decide (distance A q c ≤ r))
      | .nonfinite => none) ∧
    (t.circumcircle_contains A q).2 = (t.circumcircle A).2 ∧
    ((t.circumcircle_contains A q).2.circumcircle A).1 = (t.circumcircle A).1 := by
  refine ⟨rfl, rfl, ?_⟩
  rw [circumcircle_contains_snd]
  simp only [circumcircle_fst, circumcircle_snd]
  by_cases h : t.circumcircle_.second_lt_zero = true
  · simp only [h, if_true]
    split
    · exact calculateCircumcircle_idem A t
    · rfl
  · simp only [h, Bool.false_eq_true, if_false]

/-! ## Equality of triangles: claims C4, C5, C6 -/

section equality
variable {K : Type} [LinearOrderedField K]

/-- The comparison `operator==` holds exactly when each vertex of the receiver is a vertex of the
argument. -/
theorem operator_eq_iff_subset (t u : triangle K) :
    t.operator_eq u = true ↔ t.vertices ⊆ u.vertices := by
  simp only [triangle.operator_eq, triangle.vertices, Bool.and_eq_true, Bool.or_eq_true,
    decide_eq_true_eq, Finset.subset_iff, Finset.mem_insert, Finset.mem_singleton]
  constructor
  · rintro ⟨⟨h0, h1⟩, h2⟩ p hp
    rcases hp with rfl | rfl | rfl
    · rcases h0 with (h | h) | h <;> simp [h]
    · rcases h1 with (h | h) | h <;> simp [h]
    · rcases h2 with (h | h) | h <;> simp [h]
  · intro h
    refine ⟨⟨?_, ?_⟩, ?_⟩
    · rcases h (Or.inl rfl) with h | h | h <;> simp [h]
    · rcases h (Or.inr (Or.inl rfl)) with h | h | h <;> simp [h]
    · rcases h (Or.inr (Or.inr rfl)) with h | h | h <;> simp [h]

/-- Three pairwise distinct vertices make a vertex set of three elements. -/
theorem vertices_card_of_distinct (t : triangle K) (hd : t.distinct) :
    t.vertices.card = 3 := by
  obtain ⟨h01, h12, h02⟩ := hd
  unfold triangle.vertices
  rw [Finset.card_insert_of_not_mem, Finset.card_insert_of_not_mem, Finset.card_singleton]
  · simpa using h12
  · simp [h01, h02]

/-- For a receiver with pairwise distinct vertices `operator==` is equality of the
vertex sets. -/
theorem operator_eq_iff_of_distinct (t u : triangle K) (hd : t.distinct) :
    t.operator_eq u = true ↔ t.vertices = u.vertices := by
  rw [operator_eq_iff_subset]
  constructor
  · intro h
    apply Finset.eq_of_subset_of_card_le h
    rw [vertices_card_of_distinct t hd]
    exact Finset.card_le_three
  · intro h
    rw [h]

end equality

/-- Claim C4 fails as stated: the triangle with the vertices (0,0), (0,0), (0,0)
compares equal to the triangle (0,0), (1,0), (0,1), whose vertex (1,0) it does not
have; the two vertex sets differ. -/
theorem C4_counterexample :
    (triangle.triangle (⟨0, 0⟩ : point ℚ) ⟨0, 0⟩ ⟨0, 0⟩).operator_eq
        (triangle.triangle ⟨0, 0⟩ ⟨1, 0⟩ ⟨0, 1⟩) = true ∧
    (triangle.triangle (⟨0, 0⟩ : point ℚ) ⟨0, 0⟩ ⟨0, 0⟩).vertices ≠
        (triangle.triangle (⟨0, 0⟩ : point ℚ) ⟨1, 0⟩ ⟨0, 1⟩).vertices ∧
    (⟨1, 0⟩ : point ℚ) ∈ (triangle.triangle (⟨0, 0⟩ : point ℚ) ⟨1, 0⟩ ⟨0, 1⟩).vertices ∧
    (⟨1, 0⟩ : point ℚ) ∉ (triangle.triangle (⟨0, 0⟩ : point ℚ) ⟨0, 0⟩ ⟨0, 0⟩).vertices := by
  refine ⟨by decide, ?_, by decide, by decide⟩
  decide

/-- Claim C4 as amended: for all triangles `t` and `u` such that the three vertices
of `t` are pairwise distinct, `t == u` returns true if and only if the set of
vertices of `t` equals the set of vertices of `u`; in particular, for such `t`,
`t == u` is false whenever one of the two triangles has a vertex that is not a vertex
of the other. -/
theorem C4_eq_iff_same_vertices {K : Type} [LinearOrderedField K] (t u : triangle K)
    (hd : t.distinct) :
    (t.operator_eq u = true ↔ t.vertices = u.vertices) ∧
    ∀ p, (p ∈ t.vertices ∧ p ∉ u.vertices) ∨ (p ∈ u.vertices ∧ p ∉ t.vertices) →
      t.operator_eq u = false := by
  have h := operator_eq_iff_of_distinct t u hd
  refine ⟨h, ?_⟩
  intro p hp
  rw [← Bool.not_eq_true, h]
  intro e
  rw [e] at hp
  rcases hp with ⟨h1, h2⟩ | ⟨h1, h2⟩ <;> exact h2 h1

/-- Witness of C4 as amended at (0,0), (1,0), (0,1) and its rotation (0,1), (0,0),
(1,0). -/
theorem C4_eq_iff_same_vertices_witness :
    (triangle.triangle (⟨0, 0⟩ : point ℚ) ⟨1, 0⟩ ⟨0, 1⟩).distinct ∧
    ((triangle.triangle (⟨0, 0⟩ : point ℚ) ⟨1, 0⟩ ⟨0, 1⟩).operator_eq
        (triangle.triangle ⟨0, 1⟩ ⟨0, 0⟩ ⟨1, 0⟩) = true ↔
      (triangle.triangle (⟨0, 0⟩ : point ℚ) ⟨1, 0⟩ ⟨0, 1⟩).vertices =
        (triangle.triangle (⟨0, 1⟩ : point ℚ) ⟨0, 0⟩ ⟨1, 0⟩).vertices) :=
  ⟨by decide, (C4_eq_iff_same_vertices _ _ (by decide)).1⟩

/-- Claim C5 fails as stated: the triangle (0,0), (0,0), (0,0) compares equal to the
triangle (0,0), (1,0), (0,1), and the latter does not compare equal to the
former. -/
theorem C5_counterexample :
    (triangle.triangle (⟨0, 0⟩ : point ℚ) ⟨0, 0⟩ ⟨0, 0⟩).operator_eq
        (triangle.triangle ⟨0, 0⟩ ⟨1, 0⟩ ⟨0, 1⟩) = true ∧
    (triangle.triangle (⟨0, 0⟩ : point ℚ) ⟨1, 0⟩ ⟨0, 1⟩).operator_eq
        (triangle.triangle ⟨0, 0⟩ ⟨0, 0⟩ ⟨0, 0⟩) = false := by
  constructor <;> decide

/-- Claim C5 as amended: triangle equality is symmetric on triangles with pairwise
distinct vertices: for all such `t` and `u`, `t == u` and `u == t` return the same
boolean. -/
theorem C5_eq_symmetric {K : Type} [LinearOrderedField K] (t u : triangle K)
    (ht : t.distinct) (hu : u.distinct) :
    t.operator_eq u = u.operator_eq t := by
  rw [Bool.eq_iff_iff, operator_eq_iff_of_distinct t u ht, operator_eq_iff_of_distinct u t hu]
  exact eq_comm

/-- Witness of C5 as amended at (0,0), (1,0), (0,1) and its rotation (0,1), (0,0),
(1,0). -/
theorem C5_eq_symmetric_witness :
    (triangle.triangle (⟨0, 0⟩ : point ℚ) ⟨1, 0⟩ ⟨0, 1⟩).distinct ∧
    (triangle.triangle (⟨0, 1⟩ : point ℚ) ⟨0, 0⟩ ⟨1, 0⟩).distinct ∧
    (triangle.triangle (⟨0, 0⟩ : point ℚ) ⟨1, 0⟩ ⟨0, 1⟩).operator_eq
        (triangle.triangle ⟨0, 1⟩ ⟨0, 0⟩ ⟨1, 0⟩) =
      (triangle.triangle (⟨0, 1⟩ : point ℚ) ⟨0, 0⟩ ⟨1, 0⟩).operator_eq
        (triangle.triangle ⟨0, 0⟩ ⟨1, 0⟩ ⟨0, 1⟩) :=
  ⟨by decide, by decide, C5_eq_symmetric _ _ (by decide) (by decide)⟩

/-- Claim C6: triangle equality is invariant under reordering of the constructor
arguments: for all points `p1`, `p2`, `p3` and every permutation `(q1, q2, q3)` of
them, `triangle(p1,p2,p3) == triangle(q1,q2,q3)` returns true. -/
theorem C6_eq_permutation_invariant {K : Type} [LinearOrderedField K]
    (p1 p2 p3 q1 q2 q3 : point K) (hperm : List.Perm [q1, q2, q3] [p1, p2, p3]) :
    (triangle.triangle p1 p2 p3).operator_eq (triangle.triangle q1 q2 q3) = true := by
  rw [operator_eq_iff_subset]
  intro p hp
  have hp1 : p ∈ [p1, p2, p3] := by
    simpa [triangle.vertices, triangle.triangle] using hp
  have hq : p ∈ [q1, q2, q3] := hperm.mem_iff.mpr hp1
  simpa [triangle.vertices, triangle.triangle] using hq

/-- Witness of C6, the example of the claim: `triangle(p1,p2,p3) == triangle(p3,p1,p2)`
at `p1 = (0,0)`, `p2 = (1,0)`, `p3 = (0,1)`. -/
theorem C6_eq_permutation_invariant_witness :
    List.Perm [(⟨0, 1⟩ : point ℚ), ⟨0, 0⟩, ⟨1, 0⟩] [⟨0, 0⟩, ⟨1, 0⟩, ⟨0, 1⟩] ∧
    (triangle.triangle (⟨0, 0⟩ : point ℚ) ⟨1, 0⟩ ⟨0, 1⟩).operator_eq
      (triangle.triangle ⟨0, 1⟩ ⟨0, 0⟩ ⟨1, 0⟩) = true :=
  ⟨by decide, C6_eq_permutation_invariant _ _ _ _ _ _ (by decide)⟩

/-! ## Worked examples in exact real arithmetic: claims C7, C8 -/

/-- The square of a distance. -/
theorem distance_mul_self (p q : point ℝ) :
    distance exactReal p q * distance exactReal p q =
      (p.x - q.x) * (p.x - q.x) + (p.y - q.y) * (p.y - q.y) :=
  Real.mul_self_sqrt (add_nonneg (mul_self_nonneg _) (mul_self_nonneg _))

/-- A point and a non-negative number are the pair `circumcircle` returns for a
reachable non-degenerate triangle as soon as the point has the squared distance of
the number from each vertex. -/
theorem circumcircle_eq_of_equidistant (t : triangle ℝ) (hreach : Reachable exactReal t)
    (hnd : t.nondegenerate) (c0 : point ℝ) (r0 : ℝ) (hr0 : 0 ≤ r0)
    (h0 : (t.points_.e0.x - c0.x) * (t.points_.e0.x - c0.x) +
      (t.points_.e0.y - c0.y) * (t.points_.e0.y - c0.y) = r0 * r0)
    (h1 : (t.points_.e1.x - c0.x) * (t.points_.e1.x - c0.x) +
      (t.points_.e1.y - c0.y) * (t.points_.e1.y - c0.y) = r0 * r0)
    (h2 : (t.points_.e2.x - c0.x) * (t.points_.e2.x - c0.x) +
      (t.points_.e2.y - c0.y) * (t.points_.e2.y - c0.y) = r0 * r0) :
    (t.circumcircle exactReal).1 = .finite c0 r0 := by
  obtain ⟨c, r, h, hr, d0, d1, d2⟩ := circumcircle_equidistant t hreach hnd
  have s0 := distance_mul_self t.points_.e0 c
  have s1 := distance_mul_self t.points_.e1 c
  have s2 := distance_mul_self t.points_.e2 c
  rw [d0] at s0
  rw [d1] at s1
  rw [d2] at s2
  have hD : (t.points_.e1.x - t.points_.e0.x) * (t.points_.e2.y - t.points_.e0.y) -
      (t.points_.e2.x - t.points_.e0.x) * (t.points_.e1.y - t.points_.e0.y) ≠ 0 := hnd
  obtain ⟨cx, cy⟩ := c
  obtain ⟨c0x, c0y⟩ := c0
  simp only at s0 s1 s2 h0 h1 h2
  have hx : ((t.points_.e1.x - t.points_.e0.x) * (t.points_.e2.y - t.points_.e0.y) -
      (t.points_.e2.x - t.points_.e0.x) * (t.points_.e1.y - t.points_.e0.y)) * (cx - c0x) = 0 := by
    linear_combination
      (t.points_.e2.y - t.points_.e0.y) * (-1 / 2) * ((s0 - s1) - (h1 - h0)) -
      (t.points_.e1.y - t.points_.e0.y) * (-1 / 2) * ((s0 - s2) - (h2 - h0))
  have hy : ((t.points_.e1.x - t.points_.e0.x) * (t.points_.e2.y - t.points_.e0.y) -
      (t.points_.e2.x - t.points_.e0.x) * (t.points_.e1.y - t.points_.e0.y)) * (cy - c0y) = 0 := by
    linear_combination
      (t.points_.e1.x - t.points_.e0.x) * (-1 / 2) * ((s0 - s2) - (h2 - h0)) -
      (t.points_.e2.x - t.points_.e0.x) * (-1 / 2) * ((s0 - s1) - (h1 - h0))
  have ex : cx = c0x := by
    rcases mul_eq_zero.mp hx with h | h
    · exact absurd h hD
    · linarith
  have ey : cy = c0y := by
    rcases mul_eq_zero.mp hy with h | h
    · exact absurd h hD
    · linarith
  subst ex ey
  have er : r = r0 := (mul_self_inj hr.le hr0).mp (by rw [s0, h0])
  rw [h, er]

/-- The square of the square root of 2. -/
theorem sqrt_two_mul_self : Real.sqrt 2 * Real.sqrt 2 = 2 :=
  Real.mul_self_sqrt (by norm_num)

/-- The square root of 4. -/
theorem sqrt_four : Real.sqrt 4 = 2 := sqrt_eq_of_sq (by norm_num) (by norm_num)

/-- The square root of 16. -/
theorem sqrt_sixteen : Real.sqrt 16 = 4 := sqrt_eq_of_sq (by norm_num) (by norm_num)

/-- The square root of 32. -/
theorem sqrt_thirty_two : Real.sqrt 32 = 4 * Real.sqrt 2 :=
  sqrt_eq_of_sq (by positivity) (by linear_combination 16 * sqrt_two_mul_self)

/-- Distinct non-negative numbers have distinct square roots. -/
theorem sqrt_ne_of_sq_ne {x y : ℝ} (hx : 0 ≤ x) (hy : 0 ≤ y) (h : x ≠ y) :
    Real.sqrt x ≠ Real.sqrt y := fun e => h ((Real.sqrt_inj hx hy).mp e)

/-- Two points are equal when their coordinates are. -/
theorem point.ext_iff_xy {K : Type} (p q : point K) : p = q ↔ p.x = q.x ∧ p.y = q.y := by
  cases p; cases q; simp

/-- Claim C7: in exact real arithmetic, for the triangle constructed from (0,0), (4,0),
(0,4), `circumcircle()` returns the centre (2,2) and the radius `2 * sqrt 2`.  In
`calculateCircumcircle` the radius is `2 * sqrt 2`, the scaling is 1/2, the candidate
`test = M + MO` is (2,-2), which fails the comparison of the three distances, and the
candidate `M - MO`, which is (2,2), is stored. -/
theorem C7_example_4_4 :
    ((triangle.triangle (⟨0, 0⟩ : point ℝ) ⟨4, 0⟩ ⟨0, 4⟩).circumcircle exactReal).1 =
      .finite ⟨2, 2⟩ (2 * Real.sqrt 2) ∧
    (triangle.triangle (⟨0, 0⟩ : point ℝ) ⟨4, 0⟩ ⟨0, 4⟩).circumradius exactReal =
      some (2 * Real.sqrt 2) ∧
    (triangle.triangle (⟨0, 0⟩ : point ℝ) ⟨4, 0⟩ ⟨0, 4⟩).scaling exactReal (2 * Real.sqrt 2) =
      some (1 / 2) ∧
    (triangle.triangle (⟨0, 0⟩ : point ℝ) ⟨4, 0⟩ ⟨0, 4⟩).test exactReal (1 / 2) = ⟨2, -2⟩ ∧
    ¬ (triangle.triangle (⟨0, 0⟩ : point ℝ) ⟨4, 0⟩ ⟨0, 4⟩).test_equidistant exactReal (1 / 2) ∧
    (triangle.triangle (⟨0, 0⟩ : point ℝ) ⟨4, 0⟩ ⟨0, 4⟩).edges_.e0.midpoint -
      (triangle.triangle (⟨0, 0⟩ : point ℝ) ⟨4, 0⟩ ⟨0, 4⟩).mo_p exactReal (1 / 2) = ⟨2, 2⟩ := by
  have htest : (triangle.triangle (⟨0, 0⟩ : point ℝ) ⟨4, 0⟩ ⟨0, 4⟩).test exactReal (1 / 2) =
      ⟨2, -2⟩ := by
    simp only [triangle.test, triangle.mo_p, triangle.triangle, edge.midpoint, rotate,
      exactReal_cosDeg, exactReal_sinDeg, exactReal_castT, point.ext_iff_xy, point.add_x,
      point.add_y]
    constructor <;> norm_num
  refine ⟨?_, ?_, ?_, htest, ?_, ?_⟩
  · apply circumcircle_eq_of_equidistant _ (Reachable.construct _ _ _)
      (by norm_num [triangle.nondegenerate, collinear, triangle.triangle]) _ _ (by positivity)
    all_goals
      simp only [triangle.triangle]
      linear_combination (-4) * sqrt_two_mul_self
  · simp only [triangle.circumradius, triangle.triangle, edge.length, distance, exactReal_sqrt]
    rw [heron_area 0 0 4 0 0 4 _ _ _ (Real.mul_self_sqrt (by norm_num))
      (Real.mul_self_sqrt (by norm_num)) (Real.mul_self_sqrt (by norm_num))]
    rw [safeDiv_eq_some]
    norm_num [sqrt_sixteen, sqrt_thirty_two]
    ring
  · simp only [triangle.scaling, triangle.triangle, edge.length, edge.midpoint, rotate, distance,
      exactReal_sqrt, exactReal_cosDeg, exactReal_sinDeg]
    rw [safeDiv_eq_some]
    have h8 : 2 * Real.sqrt 2 * (2 * Real.sqrt 2) = 8 := by
      linear_combination 4 * sqrt_two_mul_self
    norm_num [sqrt_sixteen, sqrt_four, h8]
  · rw [triangle.test_equidistant, htest]
    simp only [triangle.triangle, distance, exactReal_sqrt]
    intro h
    apply sqrt_ne_of_sq_ne _ _ _ h.2 <;> norm_num
  · simp only [triangle.mo_p, triangle.triangle, edge.midpoint, rotate,
      exactReal_cosDeg, exactReal_sinDeg, exactReal_castT, point.ext_iff_xy, point.sub_x,
      point.sub_y]
    constructor <;> norm_num

/-- For the triangle (0,0), (2,0), (1,1), which has its right angle at (1,1),
`circumcircle` returns the midpoint (1,0) of the hypotenuse and the radius 1. -/
theorem circumcircle_example_2_1 :
    ((triangle.triangle (⟨0, 0⟩ : point ℝ) ⟨2, 0⟩ ⟨1, 1⟩).circumcircle exactReal).1 =
      .finite ⟨1, 0⟩ 1 := by
  apply circumcircle_eq_of_equidistant _ (Reachable.construct _ _ _)
    (by norm_num [triangle.nondegenerate, collinear, triangle.triangle]) _ _ (by norm_num)
  all_goals
    simp only [triangle.triangle]
    norm_num

/-- Claim C8 fails as stated: for the triangle (0,0), (2,0), (1,1) the pair
`circumcircle()` returns is not the centre (1, 0.5) with the radius `sqrt 1.25`; the
point (1, 0.5) is at the distance 0.5, not `sqrt 1.25`, from the vertex (1,1). -/
theorem C8_counterexample :
    ((triangle.triangle (⟨0, 0⟩ : point ℝ) ⟨2, 0⟩ ⟨1, 1⟩).circumcircle exactReal).1 ≠
      .finite ⟨1, 0.5⟩ (Real.sqrt 1.25) ∧
    distance exactReal ⟨1, 1⟩ ⟨1, 0.5⟩ ≠ Real.sqrt 1.25 := by
  constructor
  · rw [circumcircle_example_2_1]
    intro h
    injection h with h1 _
    injection h1 with _ h2
    norm_num at h2
  · simp only [distance, exactReal_sqrt]
    apply sqrt_ne_of_sq_ne <;> norm_num

/-- Claim C8 as amended: for the triangle constructed from (0,0), (2,0), (1,1), in
exact real arithmetic, `circumcircle()` returns the centre (1, 0) and the radius 1. -/
theorem C8_example_2_1 :
    ((triangle.triangle (⟨0, 0⟩ : point ℝ) ⟨2, 0⟩ ⟨1, 1⟩).circumcircle exactReal).1 =
      .finite ⟨1, 0⟩ 1 :=
  circumcircle_example_2_1

/-! ## Construction, accessors and the bad flag: claims C11, C12, C13 -/

/-- Claim C11: constructing `triangle(p1, p2, p3)` succeeds for every three points
(the constructor is a total function, with no condition on the points) and yields
the state with `points() = [p1, p2, p3]`, `edges() = [(p1,p2), (p2,p3), (p3,p1)]`,
`is_bad() = false` and an uncomputed circumcircle: the stored pair is the sentinel
with radius `-1`, for which the test `radius < 0` holds.  The constructor takes no
arithmetic and performs none of the circumcircle computation. -/
theorem C11_constructor_state {K : Type} [LinearOrderedField K] (p1 p2 p3 : point K) :
    (triangle.triangle p1 p2 p3).points = ⟨p1, p2, p3⟩ ∧
    (triangle.triangle p1 p2 p3).edges = ⟨⟨p1, p2⟩, ⟨p2, p3⟩, ⟨p3, p1⟩⟩ ∧
    (triangle.triangle p1 p2 p3).is_bad = false ∧
    (triangle.triangle p1 p2 p3).circumcircle_ = .finite ⟨0, 0⟩ (-1) ∧
    (-1 : K) < 0 ∧
    (triangle.triangle p1 p2 p3).circumcircle_.second_lt_zero = true := by
  refine ⟨rfl, rfl, rfl, rfl, by norm_num, ?_⟩
  simp [triangle.triangle, Circumcircle.second_lt_zero]

/-- Claim C12: for every triangle and integer `i`, `point_at(i)` returns `points()[i]`
and `edge_at(i)` returns `edges()[i]` when `0 <= i < 3`, and both fail, returning no
value, when `i < 0` or `i >= 3`. -/
theorem C12_point_at_edge_at {K : Type} [LinearOrderedField K] (t : triangle K) (i : Int) :
    t.point_at i =
      (if h : 0 ≤ i ∧ i < 3 then some (t.points.get ⟨i.toNat, by omega⟩) else none) ∧
    t.edge_at i =
      (if h : 0 ≤ i ∧ i < 3 then some (t.edges.get ⟨i.toNat, by omega⟩) else none) := by
  by_cases h : 0 ≤ i ∧ i < 3
  · obtain ⟨h0, h3⟩ := h
    interval_cases i <;> exact ⟨rfl, rfl⟩
  · rw [dif_neg h, dif_neg h]
    unfold triangle.point_at triangle.edge_at
    by_cases h0 : 0 ≤ i
    · have h3 : ¬ i < 3 := fun h3 => h ⟨h0, h3⟩
      simp [h0, h3]
    · simp [h0]

/-- Claim C13: for every triangle and boolean `b`, after `set_is_bad(b)` the call
`is_bad()` returns `b`, and the points, the edges and the stored circumcircle, with
its computed or uncomputed status, are unchanged; `is_bad()` returns the stored flag
and, being a function of the state alone, changes nothing. -/
theorem C13_set_is_bad_frame {K : Type} [LinearOrderedField K] (t : triangle K) (b : Bool) :
    (t.set_is_bad b).is_bad = b ∧
    (t.set_is_bad b).points = t.points ∧
    (t.set_is_bad b).edges = t.edges ∧
    (t.set_is_bad b).circumcircle_ = t.circumcircle_ ∧
    (t.set_is_bad b).circumcircle_.second_lt_zero = t.circumcircle_.second_lt_zero ∧
    t.is_bad = t.is_bad_ :=
  ⟨rfl, rfl, rfl, rfl, rfl, rfl⟩

/-! ## The debug rendering: claim C15 -/

/-- Claim C15 fails as stated: with every point rendered as `p` the output is
`[p p p ]`, without a blank after the opening bracket. -/
theorem C15_counterexample :
    triangle.operator_shl (fun _ => "p")
        (triangle.triangle (⟨0, 0⟩ : point ℚ) ⟨1, 0⟩ ⟨0, 1⟩) = "[p p p ]" ∧
    triangle.operator_shl (fun _ => "p")
        (triangle.triangle (⟨0, 0⟩ : point ℚ) ⟨1, 0⟩ ⟨0, 1⟩) ≠
      "[ " ++ "p" ++ " " ++ "p" ++ " " ++ "p" ++ " ]" := by
  constructor <;> decide

/-- Claim C15 as amended: the debug rendering of a triangle lists its three points in
construction order, each followed by a blank, between `[` and `]`: for every
triangle and every point rendering function `r` the output string equals
`"[" ++ r(p1) ++ " " ++ r(p2) ++ " " ++ r(p3) ++ " ]"`. -/
theorem C15_debug_rendering {K : Type} [LinearOrderedField K] (r : point K → String)
    (tri : triangle K) (p1 p2 p3 : point K) :
    triangle.operator_shl r tri =
      "[" ++ r tri.points.e0 ++ " " ++ r tri.points.e1 ++ " " ++ r tri.points.e2 ++ " ]" ∧
    triangle.operator_shl r (triangle.triangle p1 p2 p3) =
      "[" ++ r p1 ++ " " ++ r p2 ++ " " ++ r p3 ++ " ]" := by
  have h : ∀ u : triangle K, triangle.operator_shl r u =
      "[" ++ r u.points.e0 ++ " " ++ r u.points.e1 ++ " " ++ r u.points.e2 ++ " ]" := by
    intro u
    unfold triangle.operator_shl
    simp only [String.append_assoc]
    rfl
  exact ⟨h tri, h _⟩

/-! ## The edge and point invariant: claim C17 -/

/-- Claim C17: the edges `[(points[0],points[1]), (points[1],points[2]),
(points[2],points[0])]` are an invariant of every reachable triangle state.  The
predicate holds after construction; it is preserved by `set_is_bad`, `circumcircle`
and `circumcircle_contains`, none of which changes the points or the edges, and by
the assignment from a triangle that satisfies it, which replaces points and edges
together by those of the source.  The accessors and `operator==` are functions of
the state that return a value and no new state. -/
theorem C17_edges_consistent {K : Type} [LinearOrderedField K] (A : Arith K)
    (t u : triangle K) (ht : t.consistent) (hu : u.consistent) (b : Bool) (q : point K)
    (p1 p2 p3 : point K) :
    (triangle.triangle p1 p2 p3).consistent ∧
    ((t.set_is_bad b).consistent ∧ (t.set_is_bad b).points_ = t.points_ ∧
      (t.set_is_bad b).edges_ = t.edges_) ∧
    ((t.circumcircle A).2.consistent ∧ (t.circumcircle A).2.points_ = t.points_ ∧
      (t.circumcircle A).2.edges_ = t.edges_) ∧
    ((t.circumcircle_contains A q).2.consistent ∧
      (t.circumcircle_contains A q).2.points_ = t.points_ ∧
      (t.circumcircle_contains A q).2.edges_ = t.edges_) ∧
    ((t.operator_assign u).consistent ∧ (t.operator_assign u).points_ = u.points_ ∧
      (t.operator_assign u).edges_ = u.edges_) ∧
    (∀ s : triangle K, Reachable A s → s.consistent) := by
  have hc : (t.circumcircle A).2.points_ = t.points_ ∧
      (t.circumcircle A).2.edges_ = t.edges_ := by
    rw [circumcircle_snd]
    split
    · exact ⟨calculateCircumcircle_points A t, calculateCircumcircle_edges A t⟩
    · exact ⟨rfl, rfl⟩
  have hcc : (t.circumcircle A).2.consistent := by
    unfold triangle.consistent
    rw [hc.1, hc.2]
    exact ht
  refine ⟨rfl, ⟨ht, rfl, rfl⟩, ⟨hcc, hc.1, hc.2⟩, ⟨?_, ?_, ?_⟩, ⟨hu, rfl, rfl⟩, ?_⟩
  · rw [circumcircle_contains_snd]; exact hcc
  · rw [circumcircle_contains_snd]; exact hc.1
  · rw [circumcircle_contains_snd]; exact hc.2
  · intro s hs
    exact hs.inv.1

/-- Witness of C17 at the triangles (0,0), (1,0), (0,1) and (0,0), (4,0), (0,4) in
exact real arithmetic. -/
theorem C17_edges_consistent_witness :
    (triangle.triangle (⟨0, 0⟩ : point ℝ) ⟨1, 0⟩ ⟨0, 1⟩).consistent ∧
    (triangle.triangle (⟨0, 0⟩ : point ℝ) ⟨4, 0⟩ ⟨0, 4⟩).consistent ∧
    ((triangle.triangle (⟨0, 0⟩ : point ℝ) ⟨1, 0⟩ ⟨0, 1⟩).circumcircle exactReal).2.consistent ∧
    ((triangle.triangle (⟨0, 0⟩ : point ℝ) ⟨1, 0⟩ ⟨0, 1⟩).operator_assign
      (triangle.triangle ⟨0, 0⟩ ⟨4, 0⟩ ⟨0, 4⟩)).edges_ =
      (triangle.triangle (⟨0, 0⟩ : point ℝ) ⟨4, 0⟩ ⟨0, 4⟩).edges_ :=
  ⟨rfl, rfl,
   (C17_edges_consistent exactReal (triangle.triangle ⟨0, 0⟩ ⟨1, 0⟩ ⟨0, 1⟩)
      (triangle.triangle ⟨0, 0⟩ ⟨4, 0⟩ ⟨0, 4⟩) rfl rfl true ⟨1, 1⟩ ⟨0, 0⟩ ⟨1, 0⟩
      ⟨0, 1⟩).2.2.1.1,
   (C17_edges_consistent exactReal (triangle.triangle ⟨0, 0⟩ ⟨1, 0⟩ ⟨0, 1⟩)
      (triangle.triangle ⟨0, 0⟩ ⟨4, 0⟩ ⟨0, 4⟩) rfl rfl true ⟨1, 1⟩ ⟨0, 0⟩ ⟨1, 0⟩
      ⟨0, 1⟩).2.2.2.2.1.2.2⟩

/-! ## The comparison as a one-sided inclusion: claim C20 -/

/-- Claim C20: `operator==` is a one-sided inclusion test: `t == u` returns true
exactly when each of the three vertices of `t` is equal to at least one vertex of
`u`, with nothing required of the vertices of `u`.  Consequently it is reflexive and
transitive.  It reads the points of both triangles only: triangles with the same
points give the same result whatever their edges, stored circumcircle and bad flag,
and the comparison returns a boolean and no new state. -/
theorem C20_eq_one_sided_inclusion {K : Type} [LinearOrderedField K] (t u v : triangle K) :
    (t.operator_eq u = true ↔
      (t.points_.e0 = u.points_.e0 ∨ t.points_.e0 = u.points_.e1 ∨
        t.points_.e0 = u.points_.e2) ∧
      (t.points_.e1 = u.points_.e0 ∨ t.points_.e1 = u.points_.e1 ∨
        t.points_.e1 = u.points_.e2) ∧
      (t.points_.e2 = u.points_.e0 ∨ t.points_.e2 = u.points_.e1 ∨
        t.points_.e2 = u.points_.e2)) ∧
    t.operator_eq t = true ∧
    (t.operator_eq u = true → u.operator_eq v = true → t.operator_eq v = true) ∧
    (∀ t1 u1 : triangle K, t1.points_ = t.points_ → u1.points_ = u.points_ →
      t1.operator_eq u1 = t.operator_eq u) := by
  refine ⟨?_, ?_, ?_, ?_⟩
  · simp only [triangle.operator_eq, Bool.and_eq_true, Bool.or_eq_true, decide_eq_true_eq,
      or_assoc, and_assoc]
  · rw [operator_eq_iff_subset]
  · intro h1 h2
    rw [operator_eq_iff_subset] at h1 h2 ⊢
    exact h1.trans h2
  · intro t1 u1 h1 h2
    unfold triangle.operator_eq
    rw [h1, h2]

/-- Witness of C20 at the triangles (0,0), (0,0), (0,0); (0,0), (1,0), (1,0) and
(0,0), (1,0), (0,1): the first is included in the second and the second in the
third. -/
theorem C20_eq_one_sided_inclusion_witness :
    (triangle.triangle (⟨0, 0⟩ : point ℚ) ⟨0, 0⟩ ⟨0, 0⟩).operator_eq
      (triangle.triangle ⟨0, 0⟩ ⟨1, 0⟩ ⟨1, 0⟩) = true ∧
    (triangle.triangle (⟨0, 0⟩ : point ℚ) ⟨1, 0⟩ ⟨1, 0⟩).operator_eq
      (triangle.triangle ⟨0, 0⟩ ⟨1, 0⟩ ⟨0, 1⟩) = true ∧
    (triangle.triangle (⟨0, 0⟩ : point ℚ) ⟨0, 0⟩ ⟨0, 0⟩).operator_eq
      (triangle.triangle ⟨0, 0⟩ ⟨1, 0⟩ ⟨0, 1⟩) = true :=
  ⟨by decide, by decide,
   (C20_eq_one_sided_inclusion (triangle.triangle ⟨0, 0⟩ ⟨0, 0⟩ ⟨0, 0⟩)
      (triangle.triangle ⟨0, 0⟩ ⟨1, 0⟩ ⟨1, 0⟩)
      (triangle.triangle ⟨0, 0⟩ ⟨1, 0⟩ ⟨0, 1⟩)).2.2.1 (by decide) (by decide)⟩

/-! ## The choice of the centre and the coordinate type: claims C18, C19 -/

/-- The square root of `exactRealInt` is the real square root. -/
theorem exactRealInt_sqrt (x : ℝ) : exactRealInt.sqrt x = Real.sqrt x := rfl

/-- The cosine of -90 degrees in `exactRealInt`. -/
theorem exactRealInt_cosDeg : exactRealInt.cosDeg (-90) = 0 := exactReal_cosDeg

/-- The sine of -90 degrees in `exactRealInt`. -/
theorem exactRealInt_sinDeg : exactRealInt.sinDeg (-90) = -1 := exactReal_sinDeg

/-- The conversion to `int` of 0 is 0. -/
theorem exactRealInt_castT_zero : exactRealInt.castT 0 = 0 := by
  show (if (0 : ℝ) ≤ 0 then ((⌊(0 : ℝ)⌋ : ℤ) : ℝ) else ((⌈(0 : ℝ)⌉ : ℤ) : ℝ)) = 0
  simp

/-- The conversion to `int` of -1/2 is 0. -/
theorem exactRealInt_castT_neg_half : exactRealInt.castT (-(1 / 2)) = 0 := by
  show (if (0 : ℝ) ≤ -(1 / 2) then ((⌊(-(1 / 2) : ℝ)⌋ : ℤ) : ℝ)
    else ((⌈(-(1 / 2) : ℝ)⌉ : ℤ) : ℝ)) = 0
  have h : ¬ (0 : ℝ) ≤ -(1 / 2) := by norm_num
  rw [if_neg h]
  have hc : ⌈(-(1 / 2) : ℝ)⌉ = 0 := by
    rw [Int.ceil_eq_iff]
    norm_num
  rw [hc]
  simp

/-- The square root of 1. -/
theorem sqrt_one_eq : Real.sqrt 1 = 1 := sqrt_eq_of_sq (by norm_num) (by norm_num)

/-- The square of the square root of 5. -/
theorem sqrt_five_mul_self : Real.sqrt 5 * Real.sqrt 5 = 5 :=
  Real.mul_self_sqrt (by norm_num)

/-- The square root of 1.25 is half the square root of 5. -/
theorem sqrt_five_quarters : Real.sqrt 1.25 = Real.sqrt 5 / 2 :=
  sqrt_eq_of_sq (by positivity) (by linear_combination (1 / 4) * sqrt_five_mul_self)

/-- The locals of `calculateCircumcircle` for the triangle (0,0), (2,0), (0,1) with the
coordinate type `int`: the radius is `sqrt 1.25`, the scaling 1/4, the vector `mo`
`(0, -1/2)` is converted to `mo_p = (0, 0)`, the candidate `test` is (1,0), as is the
candidate `midpoint_ab - mo_p`, and `test` is at the distances 1, 1 and `sqrt 2` from
the three vertices. -/
theorem int_example_locals :
    (triangle.triangle (⟨0, 0⟩ : point ℝ) ⟨2, 0⟩ ⟨0, 1⟩).circumradius exactRealInt =
      some (Real.sqrt 1.25) ∧
    (triangle.triangle (⟨0, 0⟩ : point ℝ) ⟨2, 0⟩ ⟨0, 1⟩).scaling exactRealInt
      (Real.sqrt 1.25) = some (1 / 4) ∧
    (triangle.triangle (⟨0, 0⟩ : point ℝ) ⟨2, 0⟩ ⟨0, 1⟩).mo_p exactRealInt (1 / 4) = ⟨0, 0⟩ ∧
    (triangle.triangle (⟨0, 0⟩ : point ℝ) ⟨2, 0⟩ ⟨0, 1⟩).test exactRealInt (1 / 4) = ⟨1, 0⟩ ∧
    (triangle.triangle (⟨0, 0⟩ : point ℝ) ⟨2, 0⟩ ⟨0, 1⟩).edges_.e0.midpoint -
      (triangle.triangle (⟨0, 0⟩ : point ℝ) ⟨2, 0⟩ ⟨0, 1⟩).mo_p exactRealInt (1 / 4) =
      ⟨1, 0⟩ ∧
    ¬ (triangle.triangle (⟨0, 0⟩ : point ℝ) ⟨2, 0⟩ ⟨0, 1⟩).test_equidistant exactRealInt
      (1 / 4) := by
  have hmo : (triangle.triangle (⟨0, 0⟩ : point ℝ) ⟨2, 0⟩ ⟨0, 1⟩).mo_p exactRealInt (1 / 4) =
      ⟨0, 0⟩ := by
    simp only [triangle.mo_p, triangle.triangle, rotate, exactRealInt_cosDeg,
      exactRealInt_sinDeg, point.ext_iff_xy]
    constructor
    · have h : ((0 : ℝ) + (((2 : ℝ) - 0) * 0 - ((0 : ℝ) - 0) * -1) - 0) * (1 / 4) = 0 := by
        norm_num
      rw [h, exactRealInt_castT_zero]
    · have h : ((0 : ℝ) + (((2 : ℝ) - 0) * -1 + ((0 : ℝ) - 0) * 0) - 0) * (1 / 4) =
          -(1 / 2) := by norm_num
      rw [h, exactRealInt_castT_neg_half]
  have htest : (triangle.triangle (⟨0, 0⟩ : point ℝ) ⟨2, 0⟩ ⟨0, 1⟩).test exactRealInt
      (1 / 4) = ⟨1, 0⟩ := by
    rw [triangle.test, hmo]
    simp only [triangle.triangle, edge.midpoint, point.ext_iff_xy, point.add_x, point.add_y]
    constructor <;> norm_num
  refine ⟨?_, ?_, hmo, htest, ?_, ?_⟩
  · simp only [triangle.circumradius, triangle.triangle, edge.length, distance,
      exactRealInt_sqrt]
    rw [heron_area 0 0 2 0 0 1 _ _ _ (Real.mul_self_sqrt (by norm_num))
      (Real.mul_self_sqrt (by norm_num)) (Real.mul_self_sqrt (by norm_num))]
    rw [safeDiv_eq_some, sqrt_five_quarters]
    norm_num [sqrt_four, sqrt_one_eq]
    ring
  · simp only [triangle.scaling, triangle.triangle, edge.length, edge.midpoint, rotate,
      distance, exactRealInt_sqrt, exactRealInt_cosDeg, exactRealInt_sinDeg]
    rw [safeDiv_eq_some]
    have h54 : Real.sqrt 5 / 2 * (Real.sqrt 5 / 2) = 5 / 4 := by
      linear_combination (1 / 4) * sqrt_five_mul_self
    have hq : Real.sqrt (1 / 4) = 1 / 2 := sqrt_eq_of_sq (by norm_num) (by norm_num)
    have habs : |(1 : ℝ) / 4| = 1 / 4 := abs_of_nonneg (by norm_num)
    norm_num [sqrt_four, sqrt_one_eq, h54]
    rw [habs, hq]
    norm_num
  · rw [hmo]
    simp only [triangle.triangle, edge.midpoint, point.ext_iff_xy, point.sub_x, point.sub_y]
    constructor <;> norm_num
  · rw [triangle.test_equidistant, htest]
    simp only [triangle.triangle, distance, exactRealInt_sqrt]
    intro h
    apply sqrt_ne_of_sq_ne _ _ _ h.2 <;> norm_num

/-- The pair `circumcircle` returns for a freshly constructed triangle is the one
`calculateCircumcircle` stores. -/
theorem circumcircle_constructed {K : Type} [LinearOrderedField K] (A : Arith K)
    (p1 p2 p3 : point K) :
    ((triangle.triangle p1 p2 p3).circumcircle A).1 =
      ((triangle.triangle p1 p2 p3).calculateCircumcircle A).circumcircle_ := by
  have hlt : (triangle.triangle p1 p2 p3).circumcircle_.second_lt_zero = true := by
    simp [triangle.triangle, Circumcircle.second_lt_zero]
  rw [circumcircle_fst, circumcircle_snd, hlt]
  rfl

/-- Claim C18: candidate selection in `calculateCircumcircle`.  With `M` the midpoint
of the first edge, `MO` the vector `mo_p` (the first edge rotated by -90 degrees,
scaled, converted to the coordinate type) and `test = M + MO`, whenever the two
divisions succeed the stored radius is `circumradius` and the stored centre is `test`
when the distances from `test` to `P1`, `P2` and `P3` are all exactly equal, and
`M - MO` otherwise; no condition on `M - MO` enters, so that it is stored also when
it is not equidistant. -/
theorem C18_candidate_selection {K : Type} [LinearOrderedField K] (A : Arith K)
    (t : triangle K) (r σ : K) (hr : t.circumradius A = some r)
    (hσ : t.scaling A r = some σ) :
    t.test A σ = t.edges_.e0.midpoint + t.mo_p A σ ∧
    t.mo_p A σ =
      ⟨A.castT (((rotate A t.edges_.e0 (-90)).end_.x - (rotate A t.edges_.e0 (-90)).start.x) * σ),
       A.castT (((rotate A t.edges_.e0 (-90)).end_.y - (rotate A t.edges_.e0 (-90)).start.y) * σ)⟩ ∧
    (t.test_equidistant A σ ↔
      distance A t.points_.e0 (t.test A σ) = distance A t.points_.e1 (t.test A σ) ∧
      distance A t.points_.e1 (t.test A σ) = distance A t.points_.e2 (t.test A σ)) ∧
    (t.calculateCircumcircle A).circumcircle_ =
      (if t.test_equidistant A σ then .finite (t.test A σ) r
        else .finite (t.edges_.e0.midpoint - t.mo_p A σ) r) ∧
    (t.test_equidistant A σ →
      (t.calculateCircumcircle A).circumcircle_ = .finite (t.test A σ) r) ∧
    (¬ t.test_equidistant A σ →
      (t.calculateCircumcircle A).circumcircle_ =
        .finite (t.edges_.e0.midpoint - t.mo_p A σ) r) := by
  have h : (t.calculateCircumcircle A).circumcircle_ =
      (if t.test_equidistant A σ then .finite (t.test A σ) r
        else .finite (t.edges_.e0.midpoint - t.mo_p A σ) r) := by
    rw [calculateCircumcircle_eq_locals, hr]
    dsimp only
    rw [hσ]
  refine ⟨rfl, rfl, Iff.rfl, h, ?_, ?_⟩
  · intro hq
    rw [h, if_pos hq]
  · intro hq
    rw [h, if_neg hq]

/-- Witness of C18 at the triangle (0,0), (2,0), (0,1) with the coordinate type `int`:
the radius is `sqrt 1.25`, the scaling 1/4; the candidate `test` fails the comparison
and `M - MO`, the point (1,0), is stored although it is not equidistant either: it
is at the distance 1 from (0,0) and `sqrt 2` from (0,1). -/
theorem C18_candidate_selection_witness :
    (triangle.triangle (⟨0, 0⟩ : point ℝ) ⟨2, 0⟩ ⟨0, 1⟩).circumradius exactRealInt =
      some (Real.sqrt 1.25) ∧
    (triangle.triangle (⟨0, 0⟩ : point ℝ) ⟨2, 0⟩ ⟨0, 1⟩).scaling exactRealInt
      (Real.sqrt 1.25) = some (1 / 4) ∧
    ¬ (triangle.triangle (⟨0, 0⟩ : point ℝ) ⟨2, 0⟩ ⟨0, 1⟩).test_equidistant exactRealInt
      (1 / 4) ∧
    ((triangle.triangle (⟨0, 0⟩ : point ℝ) ⟨2, 0⟩ ⟨0, 1⟩).calculateCircumcircle
      exactRealInt).circumcircle_ =
      .finite ((triangle.triangle (⟨0, 0⟩ : point ℝ) ⟨2, 0⟩ ⟨0, 1⟩).edges_.e0.midpoint -
        (triangle.triangle (⟨0, 0⟩ : point ℝ) ⟨2, 0⟩ ⟨0, 1⟩).mo_p exactRealInt (1 / 4))
        (Real.sqrt 1.25) ∧
    (triangle.triangle (⟨0, 0⟩ : point ℝ) ⟨2, 0⟩ ⟨0, 1⟩).edges_.e0.midpoint -
      (triangle.triangle (⟨0, 0⟩ : point ℝ) ⟨2, 0⟩ ⟨0, 1⟩).mo_p exactRealInt (1 / 4) =
      ⟨1, 0⟩ ∧
    distance exactRealInt ⟨0, 0⟩ ⟨1, 0⟩ ≠ distance exactRealInt ⟨0, 1⟩ ⟨1, 0⟩ :=
  ⟨int_example_locals.1, int_example_locals.2.1, int_example_locals.2.2.2.2.2,
   (C18_candidate_selection exactRealInt _ _ _ int_example_locals.1
      int_example_locals.2.1).2.2.2.2.2 int_example_locals.2.2.2.2.2,
   int_example_locals.2.2.2.2.1,
   by
    simp only [distance, exactRealInt_sqrt]
    apply sqrt_ne_of_sq_ne <;> norm_num⟩

/-- Claim C19, the code at the failing input: for the triangle (0,0), (2,0), (0,1) with
the coordinate type `int`, `circumcircle()` returns the radius `sqrt 1.25` and the
centre (1,0), not the circumcentre (1, 0.5): the vector `mo = (0, -1/2)` is converted
to `point<int>` and becomes `mo_p = (0, 0)` before it is added to the midpoint.  With
the coordinate type `double` the same call returns the centre (1, 0.5). -/
theorem C19_int_coordinates_truncated :
    ((triangle.triangle (⟨0, 0⟩ : point ℝ) ⟨2, 0⟩ ⟨0, 1⟩).circumcircle exactRealInt).1 =
      .finite ⟨1, 0⟩ (Real.sqrt 1.25) ∧
    ((triangle.triangle (⟨0, 0⟩ : point ℝ) ⟨2, 0⟩ ⟨0, 1⟩).circumcircle exactRealInt).1 ≠
      .finite ⟨1, 0.5⟩ (Real.sqrt 1.25) ∧
    (triangle.triangle (⟨0, 0⟩ : point ℝ) ⟨2, 0⟩ ⟨0, 1⟩).mo_p exactRealInt (1 / 4) = ⟨0, 0⟩ ∧
    (triangle.triangle (⟨0, 0⟩ : point ℝ) ⟨2, 0⟩ ⟨0, 1⟩).mo_p exactReal (1 / 4) =
      ⟨0, -(1 / 2)⟩ ∧
    ((triangle.triangle (⟨0, 0⟩ : point ℝ) ⟨2, 0⟩ ⟨0, 1⟩).circumcircle exactReal).1 =
      .finite ⟨1, 0.5⟩ (Real.sqrt 1.25) := by
  have hint : ((triangle.triangle (⟨0, 0⟩ : point ℝ) ⟨2, 0⟩ ⟨0, 1⟩).circumcircle
      exactRealInt).1 = .finite ⟨1, 0⟩ (Real.sqrt 1.25) := by
    obtain ⟨hr, hσ, -, -, hminus, hne⟩ := int_example_locals
    rw [circumcircle_constructed, calculateCircumcircle_eq_locals, hr]
    dsimp only
    rw [hσ]
    dsimp only
    rw [if_neg hne, hminus]
  refine ⟨hint, ?_, int_example_locals.2.2.1, ?_, ?_⟩
  · rw [hint]
    intro h
    injection h with h1 _
    injection h1 with _ h2
    norm_num at h2
  · simp only [triangle.mo_p, triangle.triangle, rotate, exactReal_cosDeg, exactReal_sinDeg,
      exactReal_castT, point.ext_iff_xy]
    constructor <;> norm_num
  · apply circumcircle_eq_of_equidistant _ (Reachable.construct _ _ _)
      (by norm_num [triangle.nondegenerate, collinear, triangle.triangle]) _ _
      (Real.sqrt_nonneg _)
    all_goals
      simp only [triangle.triangle]
      rw [Real.mul_self_sqrt (by norm_num)]
      norm_num

/-! ## The centre for integer coordinates: claims C1, C2 -/

/-- For the triangle (0,0), (2,0), (0,1) with the coordinate type `int`, `circumcircle`
returns the centre (1,0) and the radius `sqrt 1.25`. -/
theorem int_example_circle :
    ((triangle.triangle (⟨0, 0⟩ : point ℝ) ⟨2, 0⟩ ⟨0, 1⟩).circumcircle exactRealInt).1 =
      .finite ⟨1, 0⟩ (Real.sqrt 1.25) := by
  obtain ⟨hr, hσ, -, -, hminus, hne⟩ := int_example_locals
  rw [circumcircle_constructed, calculateCircumcircle_eq_locals, hr]
  dsimp only
  rw [hσ]
  dsimp only
  rw [if_neg hne, hminus]

/-- The distances of the three vertices (0,0), (2,0), (0,1) from the point (1,0). -/
theorem int_example_distances :
    distance exactRealInt ⟨0, 0⟩ ⟨1, 0⟩ = 1 ∧ distance exactRealInt ⟨2, 0⟩ ⟨1, 0⟩ = 1 ∧
    distance exactRealInt ⟨0, 1⟩ ⟨1, 0⟩ = Real.sqrt 2 := by
  simp only [distance, exactRealInt_sqrt]
  refine ⟨?_, ?_, ?_⟩
  · exact sqrt_eq_of_sq (by norm_num) (by norm_num)
  · exact sqrt_eq_of_sq (by norm_num) (by norm_num)
  · congr 1
    norm_num

/-- The square root of 1.25 is smaller than the square root of 2. -/
theorem sqrt_five_quarters_lt_sqrt_two : Real.sqrt 1.25 < Real.sqrt 2 :=
  Real.sqrt_lt_sqrt (by norm_num) (by norm_num)

/-- Claim C1, the code at a failing input: the triangle (0,0), (2,0), (0,1) with the
coordinate type `int` is not degenerate, and the centre returned by `circumcircle()`,
the point (1,0) with the radius `sqrt 1.25`, is at the distances 1, 1 and `sqrt 2`
from the three vertices: the distances are not all equal and none of them is the
returned radius. -/
theorem C1_int_centre_not_equidistant :
    (triangle.triangle (⟨0, 0⟩ : point ℝ) ⟨2, 0⟩ ⟨0, 1⟩).nondegenerate ∧
    ((triangle.triangle (⟨0, 0⟩ : point ℝ) ⟨2, 0⟩ ⟨0, 1⟩).circumcircle exactRealInt).1 =
      .finite ⟨1, 0⟩ (Real.sqrt 1.25) ∧
    distance exactRealInt ⟨0, 0⟩ ⟨1, 0⟩ = 1 ∧
    distance exactRealInt ⟨2, 0⟩ ⟨1, 0⟩ = 1 ∧
    distance exactRealInt ⟨0, 1⟩ ⟨1, 0⟩ = Real.sqrt 2 ∧
    (1 : ℝ) < Real.sqrt 1.25 ∧ Real.sqrt 1.25 < Real.sqrt 2 ∧
    ¬ ∃ c r, ((triangle.triangle (⟨0, 0⟩ : point ℝ) ⟨2, 0⟩ ⟨0, 1⟩).circumcircle
        exactRealInt).1 = .finite c r ∧
      distance exactRealInt ⟨0, 0⟩ c = r ∧ distance exactRealInt ⟨2, 0⟩ c = r ∧
      distance exactRealInt ⟨0, 1⟩ c = r := by
  obtain ⟨d0, d1, d2⟩ := int_example_distances
  have h1 : (1 : ℝ) < Real.sqrt 1.25 := by
    have h := Real.sqrt_lt_sqrt (show (0 : ℝ) ≤ 1 by norm_num)
      (show (1 : ℝ) < 1.25 by norm_num)
    rwa [sqrt_one_eq] at h
  refine ⟨by norm_num [triangle.nondegenerate, collinear, triangle.triangle],
    int_example_circle, d0, d1, d2, h1, sqrt_five_quarters_lt_sqrt_two, ?_⟩
  rintro ⟨c, r, hc, e0, -, -⟩
  rw [int_example_circle] at hc
  injection hc with hc1 hc2
  subst hc1 hc2
  rw [d0] at e0
  exact absurd e0 (ne_of_lt h1)

/-- Claim C2, the code at a failing input: for the triangle (0,0), (2,0), (0,1) with
the coordinate type `int`, which is not degenerate, `circumcircle_contains` returns
false at the triangle's own vertex (0,1): the vertex is at the distance `sqrt 2` from
the stored centre (1,0) and the stored radius is `sqrt 1.25`. -/
theorem C2_int_own_vertex_outside :
    (triangle.triangle (⟨0, 0⟩ : point ℝ) ⟨2, 0⟩ ⟨0, 1⟩).nondegenerate ∧
    (triangle.triangle (⟨0, 0⟩ : point ℝ) ⟨2, 0⟩ ⟨0, 1⟩).points_.e2 = ⟨0, 1⟩ ∧
    ((triangle.triangle (⟨0, 0⟩ : point ℝ) ⟨2, 0⟩ ⟨0, 1⟩).circumcircle_contains
      exactRealInt ⟨0, 1⟩).1 = some false := by
  refine ⟨by norm_num [triangle.nondegenerate, collinear, triangle.triangle], rfl, ?_⟩
  have hd : ¬ distance exactRealInt ⟨0, 1⟩ ⟨1, 0⟩ ≤ Real.sqrt 1.25 := by
    rw [int_example_distances.2.2]
    exact not_le.mpr sqrt_five_quarters_lt_sqrt_two
  simp only [circumcircle_contains_fst, int_example_circle, hd, decide_False]

end delaunaypp
